import Mathlib

/-!
Verification of the CIFAR model-construction code of this repository:
`pytorch_image_classification/models/cifar/resnet_preact.py` and
`pytorch_image_classification/models/cifar/wrn.py`.

The embedding has two levels.

* A symbolic tensor-expression level (`TExpr`): each block's `forward`
  method is translated into a function producing the expression tree of
  operations it applies to its input, so that statements about the
  placement of normalization, activation, dropout and the shortcut
  branch can be proved exactly.

* A shape level (`Shape = (channels, height, width)`): every layer is
  translated into its effect on the shape of a single (batch-free)
  sample, returning `none` exactly where the underlying numeric engine
  raises (channel mismatch in a convolution or batch normalization,
  kernel larger than the padded input, an in-place add whose right
  operand does not broadcast into the left one).  Network construction
  (`build`) is translated faithfully, including the depth assertions and
  the dummy-tensor probe that measures the flattened feature size.
-/

/-- Shape of one sample: (channels, height, width). -/
abbrev Shape : Type := Nat × Nat × Nat

/-- Spatial output size of a convolution window: `(n - 1) / s + 1`.
Both a 3x3 convolution with padding 1 and a 1x1 convolution with
padding 0 reduce to this formula. -/
def convDim (s n : Nat) : Nat := (n - 1) / s + 1

/-- Shape semantics of `nn.Conv2d(inC, outC, kernel_size=k, stride=s,
padding=p)`: the input must have `inC` channels and the padded input
must be at least as large as the kernel. -/
def conv2dShape (inC outC k s p : Nat) (sh : Shape) : Option Shape :=
  if sh.1 = inC ∧ k ≤ sh.2.1 + 2 * p ∧ k ≤ sh.2.2 + 2 * p then
    some (outC, (sh.2.1 + 2 * p - k) / s + 1, (sh.2.2 + 2 * p - k) / s + 1)
  else none

/-- Shape semantics of `nn.BatchNorm2d(features)` applied to a batch
of one sample: the input channel count must equal `features`, and when
`train1` is true — the module is in training mode and the batch holds
a single sample, exactly the situation of the constructor's probe,
since `torch.no_grad()` does not switch off training mode —
`F.batch_norm` additionally raises `Expected more than 1 value per
channel when training` unless the per-channel value count
(batch * H * W = 1 * H * W) exceeds 1. -/
def bnShape (train1 : Bool) (features : Nat) (sh : Shape) : Option Shape :=
  if sh.1 = features ∧ (train1 = true → ¬ sh.2.1 * sh.2.2 = 1) then some sh
  else none

/-- Shape semantics of the in-place `y += s` merge: the right operand
must broadcast into the shape of `y` (each of its sizes equals the
corresponding size of `y`, or is 1). -/
def inplaceAddShape (target src : Shape) : Option Shape :=
  if (src.1 = target.1 ∨ src.1 = 1) ∧ (src.2.1 = target.2.1 ∨ src.2.1 = 1) ∧
      (src.2.2 = target.2.2 ∨ src.2.2 = 1) then
    some target
  else none

/-- Shape semantics of `F.adaptive_avg_pool2d(x, output_size=1)`. -/
def globalAvgPoolShape (sh : Shape) : Shape := (sh.1, 1, 1)

/-- The shortcut path of a residual block: either the identity
(`nn.Sequential()`) or a 1x1 convolution with a given stride. -/
inductive Shortcut where
  | identity : Shortcut
  | conv1x1 : Nat → Shortcut
deriving DecidableEq, Repr

/-- Shortcut construction, shared verbatim by all four block
constructors in the two families: a 1x1 convolution with the block's
stride is added iff `in_channels != out_channels`. -/
def mkShortcut (inC outC stride : Nat) : Shortcut :=
  if inC ≠ outC then .conv1x1 stride else .identity

/-- Symbolic tensor expressions; `bn i`, `conv i` refer to the i-th
normalization / convolution layer of a block (index 0 is the shortcut's
convolution). -/
inductive TExpr where
  | var : TExpr
  | bn : Nat → TExpr → TExpr
  | relu : TExpr → TExpr
  | conv : Nat → TExpr → TExpr
  | dropout : TExpr → TExpr
  | add : TExpr → TExpr → TExpr
deriving DecidableEq, Repr

/-- Applying a shortcut to a symbolic input. -/
def applyShortcut : Shortcut → TExpr → TExpr
  | .identity, t => t
  | .conv1x1 _, t => .conv 0 t

/-- An interpretation of the symbolic operations over a value type. -/
structure Interp (α : Type) where
  bnI : Nat → α → α
  reluI : α → α
  convI : Nat → α → α
  dropoutI : α → α
  addI : α → α → α

/-- Evaluating a symbolic expression under an interpretation, with `v`
for the input variable. -/
def TExpr.eval {α : Type} (I : Interp α) (v : α) : TExpr → α
  | .var => v
  | .bn i t => I.bnI i (TExpr.eval I v t)
  | .relu t => I.reluI (TExpr.eval I v t)
  | .conv i t => I.convI i (TExpr.eval I v t)
  | .dropout t => I.dropoutI (TExpr.eval I v t)
  | .add a b => I.addI (TExpr.eval I v a) (TExpr.eval I v b)

namespace ResnetPreact

/-- Constructor arguments of `BasicBlock` / `BottleneckBlock` in
`resnet_preact.py` (both have the same signature). -/
structure BlockParams where
  in_channels : Nat
  out_channels : Nat
  stride : Nat
  remove_first_relu : Bool
  add_last_bn : Bool
  preact : Bool
deriving DecidableEq, Repr

/-- `BasicBlock.forward` of `resnet_preact.py`, as a symbolic
expression.  Layer indices: `bn 1/bn 2` are `self.bn1/self.bn2`,
`bn 3` is the optional `self.bn3`, `conv 1/conv 2` are
`self.conv1/self.conv2`, `conv 0` is the shortcut's convolution. -/
def BasicBlock.forward (b : BlockParams) (x0 : TExpr) : TExpr :=
  let x := if b.preact then TExpr.relu (.bn 1 x0) else x0
  let y :=
    if b.preact then TExpr.conv 1 x
    else
      let y := TExpr.bn 1 x0
      let y := if !b.remove_first_relu then TExpr.relu y else y
      TExpr.conv 1 y
  let y := TExpr.conv 2 (.relu (.bn 2 y))
  let y := if b.add_last_bn then TExpr.bn 3 y else y
  .add y (applyShortcut (mkShortcut b.in_channels b.out_channels b.stride) x)

/-- `BottleneckBlock.forward` of `resnet_preact.py`, as a symbolic
expression (`bn 4` is the optional last normalization). -/
def BottleneckBlock.forward (b : BlockParams) (x0 : TExpr) : TExpr :=
  let x := if b.preact then TExpr.relu (.bn 1 x0) else x0
  let y :=
    if b.preact then TExpr.conv 1 x
    else
      let y := TExpr.bn 1 x0
      let y := if !b.remove_first_relu then TExpr.relu y else y
      TExpr.conv 1 y
  let y := TExpr.conv 2 (.relu (.bn 2 y))
  let y := TExpr.conv 3 (.relu (.bn 3 y))
  let y := if b.add_last_bn then TExpr.bn 4 y else y
  .add y (applyShortcut (mkShortcut b.in_channels b.out_channels b.stride) x)

/-- The residual path of `BasicBlock.forward` downstream of the first
convolution's input. -/
def basicResidual (b : BlockParams) (t : TExpr) : TExpr :=
  let y := TExpr.conv 2 (.relu (.bn 2 (.conv 1 t)))
  if b.add_last_bn then TExpr.bn 3 y else y

/-- The residual path of `BottleneckBlock.forward` downstream of the
first convolution's input. -/
def bottleneckResidual (b : BlockParams) (t : TExpr) : TExpr :=
  let y := TExpr.conv 3 (.relu (.bn 3 (.conv 2 (.relu (.bn 2 (.conv 1 t))))))
  if b.add_last_bn then TExpr.bn 4 y else y

/-- The two block types accepted by the `resnet_preact` network
(`assert block_type in ['basic', 'bottleneck']`). -/
inductive RBlockType where
  | basic : RBlockType
  | bottleneck : RBlockType
deriving DecidableEq, Repr

/-- The `expansion` class attribute: 1 for `BasicBlock`, 4 for
`BottleneckBlock`. -/
def RBlockType.expansion : RBlockType → Nat
  | .basic => 1
  | .bottleneck => 4

/-- `n_blocks_per_stage = (depth - 2) // 6` guarded by
`assert n_blocks_per_stage * 6 + 2 == depth` (basic blocks); `none`
models the assertion failure. -/
def basic_n_blocks (depth : Int) : Option Int :=
  let n := (depth - 2).fdiv 6
  if n * 6 + 2 = depth then some n else none

/-- `n_blocks_per_stage = (depth - 2) // 9` guarded by
`assert n_blocks_per_stage * 9 + 2 == depth` (bottleneck blocks). -/
def bottleneck_n_blocks (depth : Int) : Option Int :=
  let n := (depth - 2).fdiv 9
  if n * 9 + 2 = depth then some n else none

/-- Blocks per stage for a given block type. -/
def nBlocksResnet : RBlockType → Int → Option Int
  | .basic => basic_n_blocks
  | .bottleneck => bottleneck_n_blocks

/-- `Network._make_stage` of `resnet_preact.py`: for
`index in range(n_blocks)`, block 0 is
`block(in_channels, out_channels, stride, ...)` with the stage's preact
flag, every later block is `block(out_channels, out_channels, 1, ...)`
with `preact=False`.  (`n_blocks` is an `int`; `range` of a
non-positive count is empty, hence `Int.toNat`.) -/
def make_stage (rfr albn : Bool) (inC outC : Nat) (n : Int) (stride : Nat)
    (preact : Bool) : List BlockParams :=
  (List.range n.toNat).map fun index =>
    if index = 0 then
      ⟨inC, outC, stride, rfr, albn, preact⟩
    else
      ⟨outC, outC, 1, rfr, albn, false⟩

/-- Shape semantics of `BasicBlock.forward` (`train1` marks a batch-1
training-mode evaluation, as in the constructor's probe): bn1 (its
checks apply on both branches), conv1 3x3 with the block's stride,
bn2, conv2 3x3 stride 1, the optional bn3, then the in-place add with
the shortcut applied to the (shape-unchanged) input. -/
def basicBlockShape (train1 : Bool) (b : BlockParams) (sh : Shape) :
    Option Shape :=
  (bnShape train1 b.in_channels sh).bind fun x =>
  (conv2dShape b.in_channels b.out_channels 3 b.stride 1 x).bind fun y1 =>
  (bnShape train1 b.out_channels y1).bind fun y2 =>
  (conv2dShape b.out_channels b.out_channels 3 1 1 y2).bind fun y3 =>
  ((if b.add_last_bn then bnShape train1 b.out_channels y3 else some y3)).bind fun y4 =>
  ((match mkShortcut b.in_channels b.out_channels b.stride with
    | .identity => some x
    | .conv1x1 s => conv2dShape b.in_channels b.out_channels 1 s 0 x)).bind fun sc =>
  inplaceAddShape y4 sc

/-- Shape semantics of `BottleneckBlock.forward`; the bottleneck width
is `out_channels // 4` (`expansion = 4`). -/
def bottleneckBlockShape (train1 : Bool) (b : BlockParams) (sh : Shape) :
    Option Shape :=
  let bc := b.out_channels / 4
  (bnShape train1 b.in_channels sh).bind fun x =>
  (conv2dShape b.in_channels bc 1 1 0 x).bind fun y1 =>
  (bnShape train1 bc y1).bind fun y2 =>
  (conv2dShape bc bc 3 b.stride 1 y2).bind fun y3 =>
  (bnShape train1 bc y3).bind fun y4 =>
  (conv2dShape bc b.out_channels 1 1 0 y4).bind fun y5 =>
  ((if b.add_last_bn then bnShape train1 b.out_channels y5 else some y5)).bind fun y6 =>
  ((match mkShortcut b.in_channels b.out_channels b.stride with
    | .identity => some x
    | .conv1x1 s => conv2dShape b.in_channels b.out_channels 1 s 0 x)).bind fun sc =>
  inplaceAddShape y6 sc

/-- Shape semantics of the chosen block type. -/
def blockShapeFor : RBlockType → Bool → BlockParams → Shape → Option Shape
  | .basic => basicBlockShape
  | .bottleneck => bottleneckBlockShape

end ResnetPreact

/-- A stage (an `nn.Sequential` of blocks) applied to a shape: the
blocks are applied in order, failure propagates. -/
def stageShape {β : Type} (f : β → Shape → Option Shape) (blocks : List β)
    (sh : Shape) : Option Shape :=
  blocks.foldlM (fun acc b => f b acc) sh

namespace ResnetPreact

/-- The constructed `resnet_preact` network: stem convolution, three
stages, final normalization channel count, the channel-width list, the
measured feature size and the classifier dimensions. -/
structure Network where
  block_type : RBlockType
  stemInC : Nat
  stemOutC : Nat
  stage1 : List BlockParams
  stage2 : List BlockParams
  stage3 : List BlockParams
  bnChannels : Nat
  nChannels : List Nat
  featureSize : Nat
  fcIn : Nat
  fcOut : Nat
deriving DecidableEq, Repr

/-- `Network._forward_conv`: stem 3x3 conv, stage1, stage2, stage3,
final BatchNorm (+ ReLU, shape-neutral), adaptive average pooling to
1x1.  `train1` marks a batch-1 training-mode evaluation (true in the
constructor's probe, false in an inference pass). -/
def forwardConv (train1 : Bool) (bt : RBlockType) (stemIn stemOut : Nat)
    (s1 s2 s3 : List BlockParams) (bnCh : Nat) (sh : Shape) : Option Shape :=
  (conv2dShape stemIn stemOut 3 1 1 sh).bind fun x1 =>
  (stageShape (blockShapeFor bt train1) s1 x1).bind fun x2 =>
  (stageShape (blockShapeFor bt train1) s2 x2).bind fun x3 =>
  (stageShape (blockShapeFor bt train1) s3 x3).bind fun x4 =>
  (bnShape train1 bnCh x4).bind fun x5 =>
  some (globalAvgPoolShape x5)

/-- `Network._forward_conv` on a constructed network. -/
def Network.forward_conv (net : Network) (train1 : Bool) (sh : Shape) :
    Option Shape :=
  forwardConv train1 net.block_type net.stemInC net.stemOutC net.stage1
    net.stage2 net.stage3 net.bnChannels sh

/-- `Network.forward`: `_forward_conv`, flatten, then the linear
classifier (which requires the flattened length to equal its input
dimension); the result is the per-sample output length `n_classes`. -/
def Network.forward (net : Network) (train1 : Bool) (sh : Shape) : Option Nat :=
  (net.forward_conv train1 sh).bind fun p =>
  if p.1 * p.2.1 * p.2.2 = net.fcIn then some net.fcOut else none

/-- The configuration consumed by `Network.__init__` of
`resnet_preact.py`. -/
structure Config where
  block_type : RBlockType
  depth : Int
  initial_channels : Nat
  remove_first_relu : Bool
  add_last_bn : Bool
  preact_stage : Bool × Bool × Bool
  n_input_channels : Nat
  image_size : Nat
  n_classes : Nat
deriving DecidableEq, Repr

/-- `Network.__init__` of `resnet_preact.py`: compute and check the
block count, build the channel list
`[c, c*2*expansion, c*4*expansion]`, the stem, the three stages
(strides 1, 2, 2 with the three `preact_stage` flags), then run the
dummy probe of shape `(1, n_input_channels, image_size, image_size)`
through `_forward_conv` to measure the flattened feature size for the
final linear layer.  The probe runs on a batch of one with the freshly
built modules still in training mode (`train1 = true`).  `none` models
a constructor that raises. -/
def build (cfg : Config) : Option Network :=
  (nBlocksResnet cfg.block_type cfg.depth).bind fun n =>
  let e := cfg.block_type.expansion
  let c0 := cfg.initial_channels
  let c1 := cfg.initial_channels * 2 * e
  let c2 := cfg.initial_channels * 4 * e
  let s1 := make_stage cfg.remove_first_relu cfg.add_last_bn c0 c0 n 1
    cfg.preact_stage.1
  let s2 := make_stage cfg.remove_first_relu cfg.add_last_bn c0 c1 n 2
    cfg.preact_stage.2.1
  let s3 := make_stage cfg.remove_first_relu cfg.add_last_bn c1 c2 n 2
    cfg.preact_stage.2.2
  (forwardConv true cfg.block_type cfg.n_input_channels c0 s1 s2 s3 c2
      (cfg.n_input_channels, cfg.image_size, cfg.image_size)).bind fun probe =>
  let fs := probe.1 * probe.2.1 * probe.2.2
  some
    { block_type := cfg.block_type
      stemInC := cfg.n_input_channels
      stemOutC := c0
      stage1 := s1
      stage2 := s2
      stage3 := s3
      bnChannels := c2
      nChannels := [c0, c1, c2]
      featureSize := fs
      fcIn := fs
      fcOut := cfg.n_classes }

end ResnetPreact

namespace Wrn

/-- Constructor arguments of `BasicBlock` in `wrn.py`. -/
structure BlockParams where
  in_channels : Nat
  out_channels : Nat
  stride : Nat
  drop_rate : Rat
deriving DecidableEq, Repr

/-- `self._preactivate_both = (in_channels != out_channels)`, fixed in
`BasicBlock.__init__`. -/
def BasicBlock.preactivate_both (b : BlockParams) : Bool :=
  b.in_channels != b.out_channels

/-- `BasicBlock.forward` of `wrn.py`, as a symbolic expression: when
`_preactivate_both`, bn1+ReLU is applied to the shared input before
both paths; otherwise only the residual path is pre-activated.
Dropout sits between the two convolutions iff `drop_rate > 0`. -/
def BasicBlock.forward (b : BlockParams) (x0 : TExpr) : TExpr :=
  let x := if BasicBlock.preactivate_both b then TExpr.relu (.bn 1 x0) else x0
  let y :=
    if BasicBlock.preactivate_both b then TExpr.conv 1 x
    else TExpr.conv 1 (.relu (.bn 1 x0))
  let y := if 0 < b.drop_rate then TExpr.dropout y else y
  let y := TExpr.conv 2 (.relu (.bn 2 y))
  .add y (applyShortcut (mkShortcut b.in_channels b.out_channels b.stride) x)

/-- The residual path of `Wrn.BasicBlock.forward` downstream of the
first convolution's input. -/
def wrnResidual (b : BlockParams) (t : TExpr) : TExpr :=
  let y := TExpr.conv 1 t
  let y := if 0 < b.drop_rate then TExpr.dropout y else y
  TExpr.conv 2 (.relu (.bn 2 y))

/-- `n_blocks_per_stage = (depth - 4) // 6` guarded by
`assert n_blocks_per_stage * 6 + 4 == depth`. -/
def wrn_n_blocks (depth : Int) : Option Int :=
  let n := (depth - 4).fdiv 6
  if n * 6 + 4 = depth then some n else none

/-- `Network._make_stage` of `wrn.py`. -/
def make_stage (inC outC : Nat) (n : Int) (stride : Nat) (dr : Rat) :
    List BlockParams :=
  (List.range n.toNat).map fun index =>
    if index = 0 then ⟨inC, outC, stride, dr⟩ else ⟨outC, outC, 1, dr⟩

/-- Shape semantics of `Wrn.BasicBlock.forward` (`train1` marks a
batch-1 training-mode evaluation, as in the constructor's probe): bn1,
conv1 3x3 with the block's stride, (shape-neutral dropout), bn2, conv2
3x3 stride 1, then the in-place add with the shortcut. -/
def wrnBlockShape (train1 : Bool) (b : BlockParams) (sh : Shape) :
    Option Shape :=
  (bnShape train1 b.in_channels sh).bind fun x =>
  (conv2dShape b.in_channels b.out_channels 3 b.stride 1 x).bind fun y1 =>
  (bnShape train1 b.out_channels y1).bind fun y2 =>
  (conv2dShape b.out_channels b.out_channels 3 1 1 y2).bind fun y3 =>
  ((match mkShortcut b.in_channels b.out_channels b.stride with
    | .identity => some x
    | .conv1x1 s => conv2dShape b.in_channels b.out_channels 1 s 0 x)).bind fun sc =>
  inplaceAddShape y3 sc

/-- The constructed `wrn` network. -/
structure Network where
  stemInC : Nat
  stemOutC : Nat
  stage1 : List BlockParams
  stage2 : List BlockParams
  stage3 : List BlockParams
  bnChannels : Nat
  nChannels : List Nat
  featureSize : Nat
  fcIn : Nat
  fcOut : Nat
deriving DecidableEq, Repr

/-- `Network._forward_conv` of `wrn.py` (`train1` marks a batch-1
training-mode evaluation). -/
def forwardConv (train1 : Bool) (stemIn stemOut : Nat)
    (s1 s2 s3 : List BlockParams) (bnCh : Nat) (sh : Shape) : Option Shape :=
  (conv2dShape stemIn stemOut 3 1 1 sh).bind fun x1 =>
  (stageShape (wrnBlockShape train1) s1 x1).bind fun x2 =>
  (stageShape (wrnBlockShape train1) s2 x2).bind fun x3 =>
  (stageShape (wrnBlockShape train1) s3 x3).bind fun x4 =>
  (bnShape train1 bnCh x4).bind fun x5 =>
  some (globalAvgPoolShape x5)

/-- `Network._forward_conv` on a constructed network. -/
def Network.forward_conv (net : Network) (train1 : Bool) (sh : Shape) :
    Option Shape :=
  forwardConv train1 net.stemInC net.stemOutC net.stage1 net.stage2 net.stage3
    net.bnChannels sh

/-- `Network.forward` of `wrn.py`. -/
def Network.forward (net : Network) (train1 : Bool) (sh : Shape) : Option Nat :=
  (net.forward_conv train1 sh).bind fun p =>
  if p.1 * p.2.1 * p.2.2 = net.fcIn then some net.fcOut else none

/-- The configuration consumed by `Network.__init__` of `wrn.py`. -/
structure Config where
  depth : Int
  initial_channels : Nat
  widening_factor : Nat
  drop_rate : Rat
  n_input_channels : Nat
  image_size : Nat
  n_classes : Nat
deriving DecidableEq, Repr

/-- `Network.__init__` of `wrn.py`: check the depth, build
`[c, c*w, c*2*w, c*4*w]`, the stem, the three stages (strides 1, 2, 2),
then the dummy probe measuring the flattened feature size (a batch of
one with the modules still in training mode, `train1 = true`). -/
def build (cfg : Config) : Option Network :=
  (wrn_n_blocks cfg.depth).bind fun n =>
  let c0 := cfg.initial_channels
  let c1 := cfg.initial_channels * cfg.widening_factor
  let c2 := cfg.initial_channels * 2 * cfg.widening_factor
  let c3 := cfg.initial_channels * 4 * cfg.widening_factor
  let s1 := make_stage c0 c1 n 1 cfg.drop_rate
  let s2 := make_stage c1 c2 n 2 cfg.drop_rate
  let s3 := make_stage c2 c3 n 2 cfg.drop_rate
  (forwardConv true cfg.n_input_channels c0 s1 s2 s3 c3
      (cfg.n_input_channels, cfg.image_size, cfg.image_size)).bind fun probe =>
  let fs := probe.1 * probe.2.1 * probe.2.2
  some
    { stemInC := cfg.n_input_channels
      stemOutC := c0
      stage1 := s1
      stage2 := s2
      stage3 := s3
      bnChannels := c3
      nChannels := [c0, c1, c2, c3]
      featureSize := fs
      fcIn := fs
      fcOut := cfg.n_classes }

end Wrn

/-! ### Shape-evaluation lemmas -/

lemma convDim_pos (s h : Nat) : 1 ≤ convDim s h := by
  simp [convDim]

lemma convDim_one {h : Nat} (hh : 1 ≤ h) : convDim 1 h = h := by
  simp [convDim]
  omega

lemma conv2dShape_3x3 (inC outC s h w : Nat) (hh : 1 ≤ h) (hw : 1 ≤ w) :
    conv2dShape inC outC 3 s 1 (inC, h, w) = some (outC, convDim s h, convDim s w) := by
  have h1 : 3 ≤ h + 2 * 1 := by omega
  have h2 : 3 ≤ w + 2 * 1 := by omega
  have e1 : h + 2 * 1 - 3 = h - 1 := by omega
  have e2 : w + 2 * 1 - 3 = w - 1 := by omega
  simp [conv2dShape, convDim, h1, h2, e1, e2]

lemma conv2dShape_1x1 (inC outC s h w : Nat) (hh : 1 ≤ h) (hw : 1 ≤ w) :
    conv2dShape inC outC 1 s 0 (inC, h, w) = some (outC, convDim s h, convDim s w) := by
  have h1 : 1 ≤ h + 2 * 0 := by omega
  have h2 : 1 ≤ w + 2 * 0 := by omega
  have e1 : h + 2 * 0 - 1 = h - 1 := by omega
  have e2 : w + 2 * 0 - 1 = w - 1 := by omega
  simp [conv2dShape, convDim, h1, h2, e1, e2]
  omega

lemma two_le_mul_ne_one {a b : Nat} (ha : 2 ≤ a) (hb : 1 ≤ b) :
    ¬ a * b = 1 := by
  have h1 : 2 * 1 ≤ a * b := Nat.mul_le_mul ha hb
  omega

lemma bnShape_ok (t1 : Bool) (c h w : Nat) (hp : t1 = true → ¬ h * w = 1) :
    bnShape t1 c (c, h, w) = some (c, h, w) := by
  cases t1
  · simp [bnShape]
  · simp [bnShape, hp rfl]

lemma inplaceAddShape_self (sh : Shape) : inplaceAddShape sh sh = some sh := by
  simp [inplaceAddShape]

lemma basicBlockShape_eval (t1 : Bool) (b : ResnetPreact.BlockParams)
    (h w : Nat) (hh : 1 ≤ h) (hw : 1 ≤ w)
    (hcs : b.in_channels = b.out_channels → b.stride = 1)
    (hbn : t1 = true → 2 ≤ h ∧ 2 ≤ w ∧ 2 ≤ convDim b.stride h ∧
      2 ≤ convDim b.stride w) :
    ResnetPreact.basicBlockShape t1 b (b.in_channels, h, w)
      = some (b.out_channels, convDim b.stride h, convDim b.stride w) := by
  obtain ⟨inC, outC, s, rfr, albn, p⟩ := b
  simp only at hcs hbn ⊢
  have hp1 : t1 = true → ¬ h * w = 1 := fun hx =>
    two_le_mul_ne_one (hbn hx).1 hw
  have hp2 : t1 = true → ¬ convDim s h * convDim s w = 1 := fun hx =>
    two_le_mul_ne_one (hbn hx).2.2.1 (convDim_pos s w)
  by_cases hc : inC = outC
  · subst hc
    have hs : s = 1 := hcs rfl
    subst hs
    simp only [ResnetPreact.basicBlockShape]
    rw [bnShape_ok t1 inC h w hp1]
    simp only [Option.some_bind]
    rw [conv2dShape_3x3 _ _ _ _ _ hh hw]
    simp only [Option.some_bind, convDim_one hh, convDim_one hw]
    rw [bnShape_ok t1 inC h w hp1]
    simp only [Option.some_bind]
    rw [conv2dShape_3x3 _ _ _ _ _ hh hw]
    simp only [Option.some_bind, convDim_one hh, convDim_one hw]
    have hbn3 : (if albn = true then bnShape t1 inC (inC, h, w)
        else some (inC, h, w)) = some (inC, h, w) := by
      cases albn
      · rfl
      · simpa using bnShape_ok t1 inC h w hp1
    rw [hbn3]
    simp only [Option.some_bind, mkShortcut, ne_eq, not_true_eq_false, if_neg,
      not_not, if_pos]
    simp [convDim_one hh, convDim_one hw, inplaceAddShape_self]
  · simp only [ResnetPreact.basicBlockShape]
    rw [bnShape_ok t1 inC h w hp1]
    simp only [Option.some_bind]
    rw [conv2dShape_3x3 _ _ _ _ _ hh hw]
    simp only [Option.some_bind]
    rw [bnShape_ok t1 outC (convDim s h) (convDim s w) hp2]
    simp only [Option.some_bind]
    rw [conv2dShape_3x3 _ _ _ _ _ (convDim_pos _ _) (convDim_pos _ _)]
    simp only [Option.some_bind, convDim_one (convDim_pos s h),
      convDim_one (convDim_pos s w)]
    have hbn3 : (if albn = true then
          bnShape t1 outC (outC, convDim s h, convDim s w)
        else some (outC, convDim s h, convDim s w))
        = some (outC, convDim s h, convDim s w) := by
      cases albn
      · rfl
      · simpa using bnShape_ok t1 outC (convDim s h) (convDim s w) hp2
    rw [hbn3]
    simp only [Option.some_bind, mkShortcut, ne_eq, hc, not_false_eq_true,
      if_pos]
    rw [conv2dShape_1x1 _ _ _ _ _ hh hw]
    simp [inplaceAddShape_self]

lemma bottleneckBlockShape_eval (t1 : Bool) (b : ResnetPreact.BlockParams)
    (h w : Nat) (hh : 1 ≤ h) (hw : 1 ≤ w)
    (hcs : b.in_channels = b.out_channels → b.stride = 1)
    (hbn : t1 = true → 2 ≤ h ∧ 2 ≤ w ∧ 2 ≤ convDim b.stride h ∧
      2 ≤ convDim b.stride w) :
    ResnetPreact.bottleneckBlockShape t1 b (b.in_channels, h, w)
      = some (b.out_channels, convDim b.stride h, convDim b.stride w) := by
  obtain ⟨inC, outC, s, rfr, albn, p⟩ := b
  simp only at hcs hbn ⊢
  have hp1 : t1 = true → ¬ h * w = 1 := fun hx =>
    two_le_mul_ne_one (hbn hx).1 hw
  have hp2 : t1 = true → ¬ convDim s h * convDim s w = 1 := fun hx =>
    two_le_mul_ne_one (hbn hx).2.2.1 (convDim_pos s w)
  by_cases hc : inC = outC
  · subst hc
    have hs : s = 1 := hcs rfl
    subst hs
    simp only [ResnetPreact.bottleneckBlockShape]
    rw [bnShape_ok t1 inC h w hp1]
    simp only [Option.some_bind]
    rw [conv2dShape_1x1 _ _ _ _ _ hh hw]
    simp only [Option.some_bind, convDim_one hh, convDim_one hw]
    rw [bnShape_ok t1 (inC / 4) h w hp1]
    simp only [Option.some_bind]
    rw [conv2dShape_3x3 _ _ _ _ _ hh hw]
    simp only [Option.some_bind, convDim_one hh, convDim_one hw]
    rw [bnShape_ok t1 (inC / 4) h w hp1]
    simp only [Option.some_bind]
    rw [conv2dShape_1x1 _ _ _ _ _ hh hw]
    simp only [Option.some_bind, convDim_one hh, convDim_one hw]
    have hbn4 : (if albn = true then bnShape t1 inC (inC, h, w)
        else some (inC, h, w)) = some (inC, h, w) := by
      cases albn
      · rfl
      · simpa using bnShape_ok t1 inC h w hp1
    rw [hbn4]
    simp only [Option.some_bind, mkShortcut, ne_eq, not_true_eq_false, if_neg,
      not_not, if_pos]
    simp [convDim_one hh, convDim_one hw, inplaceAddShape_self]
  · simp only [ResnetPreact.bottleneckBlockShape]
    rw [bnShape_ok t1 inC h w hp1]
    simp only [Option.some_bind]
    rw [conv2dShape_1x1 _ _ _ _ _ hh hw]
    simp only [Option.some_bind, convDim_one hh, convDim_one hw]
    rw [bnShape_ok t1 (outC / 4) h w hp1]
    simp only [Option.some_bind]
    rw [conv2dShape_3x3 _ _ _ _ _ hh hw]
    simp only [Option.some_bind]
    rw [bnShape_ok t1 (outC / 4) (convDim s h) (convDim s w) hp2]
    simp only [Option.some_bind]
    rw [conv2dShape_1x1 _ _ _ _ _ (convDim_pos _ _) (convDim_pos _ _)]
    simp only [Option.some_bind, convDim_one (convDim_pos s h),
      convDim_one (convDim_pos s w)]
    have hbn4 : (if albn = true then
          bnShape t1 outC (outC, convDim s h, convDim s w)
        else some (outC, convDim s h, convDim s w))
        = some (outC, convDim s h, convDim s w) := by
      cases albn
      · rfl
      · simpa using bnShape_ok t1 outC (convDim s h) (convDim s w) hp2
    rw [hbn4]
    simp only [Option.some_bind, mkShortcut, ne_eq, hc, not_false_eq_true,
      if_pos]
    rw [conv2dShape_1x1 _ _ _ _ _ hh hw]
    simp [inplaceAddShape_self]

lemma wrnBlockShape_eval (t1 : Bool) (b : Wrn.BlockParams) (h w : Nat)
    (hh : 1 ≤ h) (hw : 1 ≤ w)
    (hcs : b.in_channels = b.out_channels → b.stride = 1)
    (hbn : t1 = true → 2 ≤ h ∧ 2 ≤ w ∧ 2 ≤ convDim b.stride h ∧
      2 ≤ convDim b.stride w) :
    Wrn.wrnBlockShape t1 b (b.in_channels, h, w)
      = some (b.out_channels, convDim b.stride h, convDim b.stride w) := by
  obtain ⟨inC, outC, s, dr⟩ := b
  simp only at hcs hbn ⊢
  have hp1 : t1 = true → ¬ h * w = 1 := fun hx =>
    two_le_mul_ne_one (hbn hx).1 hw
  have hp2 : t1 = true → ¬ convDim s h * convDim s w = 1 := fun hx =>
    two_le_mul_ne_one (hbn hx).2.2.1 (convDim_pos s w)
  by_cases hc : inC = outC
  · subst hc
    have hs : s = 1 := hcs rfl
    subst hs
    simp only [Wrn.wrnBlockShape]
    rw [bnShape_ok t1 inC h w hp1]
    simp only [Option.some_bind]
    rw [conv2dShape_3x3 _ _ _ _ _ hh hw]
    simp only [Option.some_bind, convDim_one hh, convDim_one hw]
    rw [bnShape_ok t1 inC h w hp1]
    simp only [Option.some_bind]
    rw [conv2dShape_3x3 _ _ _ _ _ hh hw]
    simp only [Option.some_bind, convDim_one hh, convDim_one hw]
    simp only [mkShortcut, ne_eq, not_true_eq_false, if_neg, not_not, if_pos]
    simp [convDim_one hh, convDim_one hw, inplaceAddShape_self]
  · simp only [Wrn.wrnBlockShape]
    rw [bnShape_ok t1 inC h w hp1]
    simp only [Option.some_bind]
    rw [conv2dShape_3x3 _ _ _ _ _ hh hw]
    simp only [Option.some_bind]
    rw [bnShape_ok t1 outC (convDim s h) (convDim s w) hp2]
    simp only [Option.some_bind]
    rw [conv2dShape_3x3 _ _ _ _ _ (convDim_pos _ _) (convDim_pos _ _)]
    simp only [Option.some_bind, convDim_one (convDim_pos s h),
      convDim_one (convDim_pos s w)]
    simp only [mkShortcut, ne_eq, hc, not_false_eq_true, if_pos]
    rw [conv2dShape_1x1 _ _ _ _ _ hh hw]
    simp [inplaceAddShape_self]

/-! ### Stage-level lemmas -/

lemma map_const_list {α β : Type} (l : List α) (b : β) :
    l.map (fun _ => b) = List.replicate l.length b := by
  induction l with
  | nil => rfl
  | cons x xs ih => simp [ih, List.replicate_succ]

lemma stageShape_nil {β : Type} (f : β → Shape → Option Shape) (sh : Shape) :
    stageShape f [] sh = some sh := rfl

lemma stageShape_cons {β : Type} (f : β → Shape → Option Shape) (b : β)
    (bs : List β) (sh : Shape) :
    stageShape f (b :: bs) sh = (f b sh).bind (stageShape f bs) := by
  cases hfb : f b sh <;> simp [stageShape, List.foldlM_cons, hfb]

lemma stageShape_replicate {β : Type} (f : β → Shape → Option Shape) (blk : β)
    (sh : Shape) (hpres : f blk sh = some sh) :
    ∀ k : Nat, stageShape f (List.replicate k blk) sh = some sh := by
  intro k
  induction k with
  | zero => rfl
  | succ m ih =>
    rw [List.replicate_succ, stageShape_cons, hpres]
    simpa only [Option.some_bind] using ih

lemma make_stage_eq (rfr albn : Bool) (inC outC : Nat) (n : Int) (s : Nat)
    (p : Bool) :
    ResnetPreact.make_stage rfr albn inC outC n s p =
      if n.toNat = 0 then []
      else (⟨inC, outC, s, rfr, albn, p⟩ : ResnetPreact.BlockParams) ::
        List.replicate (n.toNat - 1) ⟨outC, outC, 1, rfr, albn, false⟩ := by
  unfold ResnetPreact.make_stage
  cases hn : n.toNat with
  | zero => simp
  | succ m =>
    rw [if_neg (Nat.succ_ne_zero m), List.range_succ_eq_map]
    simp only [List.map_cons, if_pos rfl, List.map_map]
    have : ((fun index => if index = 0 then
          (⟨inC, outC, s, rfr, albn, p⟩ : ResnetPreact.BlockParams)
          else ⟨outC, outC, 1, rfr, albn, false⟩) ∘ Nat.succ)
        = fun _ => (⟨outC, outC, 1, rfr, albn, false⟩ : ResnetPreact.BlockParams) := by
      funext i
      simp [Function.comp, Nat.succ_ne_zero]
    rw [this, map_const_list, List.length_range]
    simp

lemma wrn_make_stage_eq (inC outC : Nat) (n : Int) (s : Nat) (dr : Rat) :
    Wrn.make_stage inC outC n s dr =
      if n.toNat = 0 then []
      else (⟨inC, outC, s, dr⟩ : Wrn.BlockParams) ::
        List.replicate (n.toNat - 1) ⟨outC, outC, 1, dr⟩ := by
  unfold Wrn.make_stage
  cases hn : n.toNat with
  | zero => simp
  | succ m =>
    rw [if_neg (Nat.succ_ne_zero m), List.range_succ_eq_map]
    simp only [List.map_cons, if_pos rfl, List.map_map]
    have : ((fun index => if index = 0 then (⟨inC, outC, s, dr⟩ : Wrn.BlockParams)
          else ⟨outC, outC, 1, dr⟩) ∘ Nat.succ)
        = fun _ => (⟨outC, outC, 1, dr⟩ : Wrn.BlockParams) := by
      funext i
      simp [Function.comp, Nat.succ_ne_zero]
    rw [this, map_const_list, List.length_range]
    simp

lemma stageShape_make_stage (t1 : Bool)
    (f : ResnetPreact.BlockParams → Shape → Option Shape)
    (hf : ∀ b h w, 1 ≤ h → 1 ≤ w →
      (ResnetPreact.BlockParams.in_channels b = ResnetPreact.BlockParams.out_channels b →
        ResnetPreact.BlockParams.stride b = 1) →
      (t1 = true → 2 ≤ h ∧ 2 ≤ w ∧
        2 ≤ convDim (ResnetPreact.BlockParams.stride b) h ∧
        2 ≤ convDim (ResnetPreact.BlockParams.stride b) w) →
      f b (ResnetPreact.BlockParams.in_channels b, h, w)
        = some (ResnetPreact.BlockParams.out_channels b,
            convDim (ResnetPreact.BlockParams.stride b) h,
            convDim (ResnetPreact.BlockParams.stride b) w))
    (rfr albn : Bool) (inC outC : Nat) (n : Int) (s : Nat) (p : Bool)
    (h w : Nat) (hh : 1 ≤ h) (hw : 1 ≤ w) (hcs : inC = outC → s = 1)
    (ht : t1 = true → 2 ≤ h ∧ 2 ≤ w ∧ 2 ≤ convDim s h ∧ 2 ≤ convDim s w) :
    stageShape f (ResnetPreact.make_stage rfr albn inC outC n s p) (inC, h, w)
      = some (if n.toNat = 0 then (inC, h, w)
              else (outC, convDim s h, convDim s w)) := by
  rw [make_stage_eq]
  by_cases hn : n.toNat = 0
  · simp [hn, stageShape_nil]
  · rw [if_neg hn, if_neg hn, stageShape_cons]
    have h1 := hf ⟨inC, outC, s, rfr, albn, p⟩ h w hh hw hcs ht
    simp only at h1
    rw [h1]
    simp only [Option.some_bind]
    have ht2 : t1 = true → 2 ≤ convDim s h ∧ 2 ≤ convDim s w ∧
        2 ≤ convDim 1 (convDim s h) ∧ 2 ≤ convDim 1 (convDim s w) := by
      intro hx
      obtain ⟨_, _, h3, h4⟩ := ht hx
      rw [convDim_one (convDim_pos s h), convDim_one (convDim_pos s w)]
      exact ⟨h3, h4, h3, h4⟩
    have h3 := hf ⟨outC, outC, 1, rfr, albn, false⟩ (convDim s h) (convDim s w)
      (convDim_pos s h) (convDim_pos s w) (fun _ => rfl) ht2
    simp only at h3
    rw [convDim_one (convDim_pos s h), convDim_one (convDim_pos s w)] at h3
    exact stageShape_replicate f _ _ h3 _

lemma stageShape_wrn_make_stage (t1 : Bool)
    (inC outC : Nat) (n : Int) (s : Nat) (dr : Rat)
    (h w : Nat) (hh : 1 ≤ h) (hw : 1 ≤ w) (hcs : inC = outC → s = 1)
    (ht : t1 = true → 2 ≤ h ∧ 2 ≤ w ∧ 2 ≤ convDim s h ∧ 2 ≤ convDim s w) :
    stageShape (Wrn.wrnBlockShape t1) (Wrn.make_stage inC outC n s dr)
      (inC, h, w)
      = some (if n.toNat = 0 then (inC, h, w)
              else (outC, convDim s h, convDim s w)) := by
  rw [wrn_make_stage_eq]
  by_cases hn : n.toNat = 0
  · simp [hn, stageShape_nil]
  · rw [if_neg hn, if_neg hn, stageShape_cons]
    have h1 := wrnBlockShape_eval t1 ⟨inC, outC, s, dr⟩ h w hh hw hcs ht
    simp only at h1
    rw [h1]
    simp only [Option.some_bind]
    have ht2 : t1 = true → 2 ≤ convDim s h ∧ 2 ≤ convDim s w ∧
        2 ≤ convDim 1 (convDim s h) ∧ 2 ≤ convDim 1 (convDim s w) := by
      intro hx
      obtain ⟨_, _, h3, h4⟩ := ht hx
      rw [convDim_one (convDim_pos s h), convDim_one (convDim_pos s w)]
      exact ⟨h3, h4, h3, h4⟩
    have h3 := wrnBlockShape_eval t1 ⟨outC, outC, 1, dr⟩ (convDim s h)
      (convDim s w) (convDim_pos s h) (convDim_pos s w) (fun _ => rfl) ht2
    simp only at h3
    rw [convDim_one (convDim_pos s h), convDim_one (convDim_pos s w)] at h3
    exact stageShape_replicate (Wrn.wrnBlockShape t1) _ _ h3 _

/-! ### Network-level lemmas, resnet_preact -/

lemma expansion_pos (bt : ResnetPreact.RBlockType) : 1 ≤ bt.expansion := by
  cases bt <;> simp [ResnetPreact.RBlockType.expansion]

lemma blockShapeFor_eval (bt : ResnetPreact.RBlockType) (t1 : Bool) :
    ∀ (b : ResnetPreact.BlockParams) (h w : Nat), 1 ≤ h → 1 ≤ w →
      (b.in_channels = b.out_channels → b.stride = 1) →
      (t1 = true → 2 ≤ h ∧ 2 ≤ w ∧ 2 ≤ convDim b.stride h ∧
        2 ≤ convDim b.stride w) →
      ResnetPreact.blockShapeFor bt t1 b (b.in_channels, h, w)
        = some (b.out_channels, convDim b.stride h, convDim b.stride w) := by
  cases bt
  · exact fun b h w hh hw hcs hbn => basicBlockShape_eval t1 b h w hh hw hcs hbn
  · exact fun b h w hh hw hcs hbn =>
      bottleneckBlockShape_eval t1 b h w hh hw hcs hbn

lemma convDim_two_le_iff (m n : Nat) (hm : 1 ≤ m) :
    m + 1 ≤ convDim 2 n ↔ 2 * m + 1 ≤ n := by
  unfold convDim
  constructor
  · intro hx
    have h1 : m ≤ (n - 1) / 2 := by omega
    have h2 := (Nat.le_div_iff_mul_le (by omega : 0 < 2)).mp h1
    omega
  · intro hx
    have h1 : m * 2 ≤ n - 1 := by omega
    have h2 := (Nat.le_div_iff_mul_le (by omega : 0 < 2)).mpr h1
    omega

lemma convDim_two_inv2 {m : Nat} (hm : 2 ≤ convDim 2 m) : 3 ≤ m := by
  have := (convDim_two_le_iff 1 m (by omega)).mp (by omega)
  omega

lemma convDim_two_inv3 {m : Nat} (hm : 3 ≤ convDim 2 m) : 5 ≤ m := by
  have := (convDim_two_le_iff 2 m (by omega)).mp (by omega)
  omega

lemma convDim_two_of_five {m : Nat} (hm : 5 ≤ m) :
    2 ≤ convDim 2 (convDim 2 m) := by
  have h1 := (convDim_two_le_iff 2 m (by omega)).mpr (by omega)
  have h2 := (convDim_two_le_iff 1 (convDim 2 m) (by omega)).mpr (by omega)
  omega

lemma initial_lt_c1 {i e : Nat} (hi : 1 ≤ i) (he : 1 ≤ e) : i < i * 2 * e := by
  have h1 : i * 2 * 1 ≤ i * 2 * e := Nat.mul_le_mul_left (i * 2) he
  omega

lemma c1_lt_c2 {i e : Nat} (hi : 1 ≤ i) (he : 1 ≤ e) : i * 2 * e < i * 4 * e := by
  have h1 : 0 < e := he
  have h2 : i * 2 < i * 4 := by omega
  exact Nat.mul_lt_mul_of_lt_of_le h2 (le_refl e) h1

lemma resnet_forwardConv_eval (t1 : Bool) (bt : ResnetPreact.RBlockType)
    (stemIn i : Nat) (hi : 1 ≤ i) (rfr albn p1 p2 p3 : Bool) (n : Int)
    (hn : 1 ≤ n) (h w : Nat) (hh : 1 ≤ h) (hw : 1 ≤ w)
    (ht : t1 = true → 2 ≤ convDim 2 (convDim 2 h) ∧
      2 ≤ convDim 2 (convDim 2 w)) :
    ResnetPreact.forwardConv t1 bt stemIn i
      (ResnetPreact.make_stage rfr albn i i n 1 p1)
      (ResnetPreact.make_stage rfr albn i (i * 2 * bt.expansion) n 2 p2)
      (ResnetPreact.make_stage rfr albn (i * 2 * bt.expansion)
        (i * 4 * bt.expansion) n 2 p3)
      (i * 4 * bt.expansion) (stemIn, h, w)
      = some (i * 4 * bt.expansion, 1, 1) := by
  have he := expansion_pos bt
  have hn0 : ¬ n.toNat = 0 := by omega
  have hth : t1 = true → 5 ≤ h ∧ 5 ≤ w ∧ 3 ≤ convDim 2 h ∧ 3 ≤ convDim 2 w := by
    intro hx
    obtain ⟨a, b⟩ := ht hx
    have c1 : 3 ≤ convDim 2 h := convDim_two_inv2 a
    have c2 : 3 ≤ convDim 2 w := convDim_two_inv2 b
    exact ⟨convDim_two_inv3 c1, convDim_two_inv3 c2, c1, c2⟩
  unfold ResnetPreact.forwardConv
  rw [conv2dShape_3x3 _ _ _ _ _ hh hw]
  simp only [Option.some_bind, convDim_one hh, convDim_one hw]
  rw [stageShape_make_stage t1 (ResnetPreact.blockShapeFor bt t1)
    (blockShapeFor_eval bt t1) rfr albn i i n 1 p1 h w hh hw (fun _ => rfl)
    (fun hx => by
      obtain ⟨a, b, _, _⟩ := hth hx
      rw [convDim_one hh, convDim_one hw]
      exact ⟨by omega, by omega, by omega, by omega⟩)]
  simp only [if_neg hn0, Option.some_bind, convDim_one hh, convDim_one hw]
  rw [stageShape_make_stage t1 (ResnetPreact.blockShapeFor bt t1)
    (blockShapeFor_eval bt t1) rfr albn i (i * 2 * bt.expansion) n 2 p2 h w
    hh hw (fun hEq => absurd hEq (Nat.ne_of_lt (initial_lt_c1 hi he)))
    (fun hx => by
      obtain ⟨a, b, c, d⟩ := hth hx
      exact ⟨by omega, by omega, by omega, by omega⟩)]
  simp only [if_neg hn0, Option.some_bind]
  rw [stageShape_make_stage t1 (ResnetPreact.blockShapeFor bt t1)
    (blockShapeFor_eval bt t1) rfr albn (i * 2 * bt.expansion)
    (i * 4 * bt.expansion) n 2 p3 (convDim 2 h) (convDim 2 w)
    (convDim_pos _ _) (convDim_pos _ _)
    (fun hEq => absurd hEq (Nat.ne_of_lt (c1_lt_c2 hi he)))
    (fun hx => by
      obtain ⟨a, b⟩ := ht hx
      obtain ⟨_, _, c, d⟩ := hth hx
      exact ⟨by omega, by omega, a, b⟩)]
  simp only [if_neg hn0, Option.some_bind]
  rw [bnShape_ok t1 (i * 4 * bt.expansion) (convDim 2 (convDim 2 h))
    (convDim 2 (convDim 2 w))
    (fun hx => two_le_mul_ne_one (ht hx).1 (convDim_pos _ _))]
  simp [globalAvgPoolShape]

lemma resnet_forwardConv_some_spatial (t1 : Bool)
    (bt : ResnetPreact.RBlockType)
    (stemIn stemOut : Nat) (s1 s2 s3 : List ResnetPreact.BlockParams)
    (bnCh : Nat) (h w : Nat) (p : Shape)
    (hp : ResnetPreact.forwardConv t1 bt stemIn stemOut s1 s2 s3 bnCh
      (stemIn, h, w) = some p) : 1 ≤ h ∧ 1 ≤ w := by
  simp only [ResnetPreact.forwardConv, Option.bind_eq_some] at hp
  obtain ⟨x1, hx1, _⟩ := hp
  simp only [conv2dShape] at hx1
  split at hx1
  · next hcond =>
    have h1 := hcond.2.1
    have h2 := hcond.2.2
    simp only at h1 h2
    omega
  · exact absurd hx1 (by simp)

/-- The network record produced by a successful `resnet_preact` build. -/
def resnetBuiltNet (cfg : ResnetPreact.Config) (n : Int) : ResnetPreact.Network :=
  { block_type := cfg.block_type
    stemInC := cfg.n_input_channels
    stemOutC := cfg.initial_channels
    stage1 := ResnetPreact.make_stage cfg.remove_first_relu cfg.add_last_bn
      cfg.initial_channels cfg.initial_channels n 1 cfg.preact_stage.1
    stage2 := ResnetPreact.make_stage cfg.remove_first_relu cfg.add_last_bn
      cfg.initial_channels (cfg.initial_channels * 2 * cfg.block_type.expansion)
      n 2 cfg.preact_stage.2.1
    stage3 := ResnetPreact.make_stage cfg.remove_first_relu cfg.add_last_bn
      (cfg.initial_channels * 2 * cfg.block_type.expansion)
      (cfg.initial_channels * 4 * cfg.block_type.expansion) n 2
      cfg.preact_stage.2.2
    bnChannels := cfg.initial_channels * 4 * cfg.block_type.expansion
    nChannels := [cfg.initial_channels,
      cfg.initial_channels * 2 * cfg.block_type.expansion,
      cfg.initial_channels * 4 * cfg.block_type.expansion]
    featureSize := cfg.initial_channels * 4 * cfg.block_type.expansion
    fcIn := cfg.initial_channels * 4 * cfg.block_type.expansion
    fcOut := cfg.n_classes }

lemma resnet_build_eq (cfg : ResnetPreact.Config)
    (hi : 1 ≤ cfg.initial_channels) (himg : 5 ≤ cfg.image_size)
    (n : Int) (hn : ResnetPreact.nBlocksResnet cfg.block_type cfg.depth = some n)
    (hn1 : 1 ≤ n) :
    ResnetPreact.build cfg = some (resnetBuiltNet cfg n) := by
  unfold ResnetPreact.build
  rw [hn]
  simp only [Option.some_bind]
  rw [resnet_forwardConv_eval true cfg.block_type cfg.n_input_channels
    cfg.initial_channels hi cfg.remove_first_relu cfg.add_last_bn
    cfg.preact_stage.1 cfg.preact_stage.2.1 cfg.preact_stage.2.2 n hn1
    cfg.image_size cfg.image_size (by omega) (by omega)
    (fun _ => ⟨convDim_two_of_five himg, convDim_two_of_five himg⟩)]
  simp only [Option.some_bind, resnetBuiltNet]
  simp

lemma resnet_build_inv (cfg : ResnetPreact.Config) (net : ResnetPreact.Network)
    (h : ResnetPreact.build cfg = some net) :
    ∃ (n : Int) (probe : Shape),
      ResnetPreact.nBlocksResnet cfg.block_type cfg.depth = some n ∧
      ResnetPreact.forwardConv true cfg.block_type cfg.n_input_channels
        cfg.initial_channels
        (ResnetPreact.make_stage cfg.remove_first_relu cfg.add_last_bn
          cfg.initial_channels cfg.initial_channels n 1 cfg.preact_stage.1)
        (ResnetPreact.make_stage cfg.remove_first_relu cfg.add_last_bn
          cfg.initial_channels
          (cfg.initial_channels * 2 * cfg.block_type.expansion) n 2
          cfg.preact_stage.2.1)
        (ResnetPreact.make_stage cfg.remove_first_relu cfg.add_last_bn
          (cfg.initial_channels * 2 * cfg.block_type.expansion)
          (cfg.initial_channels * 4 * cfg.block_type.expansion) n 2
          cfg.preact_stage.2.2)
        (cfg.initial_channels * 4 * cfg.block_type.expansion)
        (cfg.n_input_channels, cfg.image_size, cfg.image_size) = some probe ∧
      net = { resnetBuiltNet cfg n with
        featureSize := probe.1 * probe.2.1 * probe.2.2
        fcIn := probe.1 * probe.2.1 * probe.2.2 } := by
  simp only [ResnetPreact.build, Option.bind_eq_some] at h
  obtain ⟨n, hn, probe, hp, hnet⟩ := h
  refine ⟨n, probe, hn, hp, ?_⟩
  rw [← Option.some.inj hnet]
  rfl

/-! ### Network-level lemmas, wrn -/

lemma wrn_c1_lt_c2 {i wf : Nat} (hi : 1 ≤ i) (hwf : 1 ≤ wf) :
    i * wf < i * 2 * wf := by
  have h1 : 1 ≤ i * wf := Nat.mul_le_mul hi hwf
  have h2 : i * 2 * wf = i * wf * 2 := by ring
  omega

lemma wrn_c2_lt_c3 {i wf : Nat} (hi : 1 ≤ i) (hwf : 1 ≤ wf) :
    i * 2 * wf < i * 4 * wf := by
  have h1 : 0 < wf := hwf
  have h2 : i * 2 < i * 4 := by omega
  exact Nat.mul_lt_mul_of_lt_of_le h2 (le_refl wf) h1

lemma wrn_forwardConv_eval (t1 : Bool) (stemIn i wf : Nat) (hi : 1 ≤ i)
    (hwf : 1 ≤ wf) (dr : Rat) (n : Int) (hn : 1 ≤ n) (h w : Nat)
    (hh : 1 ≤ h) (hw : 1 ≤ w)
    (ht : t1 = true → 2 ≤ convDim 2 (convDim 2 h) ∧
      2 ≤ convDim 2 (convDim 2 w)) :
    Wrn.forwardConv t1 stemIn i
      (Wrn.make_stage i (i * wf) n 1 dr)
      (Wrn.make_stage (i * wf) (i * 2 * wf) n 2 dr)
      (Wrn.make_stage (i * 2 * wf) (i * 4 * wf) n 2 dr)
      (i * 4 * wf) (stemIn, h, w) = some (i * 4 * wf, 1, 1) := by
  have hn0 : ¬ n.toNat = 0 := by omega
  have hth : t1 = true → 5 ≤ h ∧ 5 ≤ w ∧ 3 ≤ convDim 2 h ∧ 3 ≤ convDim 2 w := by
    intro hx
    obtain ⟨a, b⟩ := ht hx
    have c1 : 3 ≤ convDim 2 h := convDim_two_inv2 a
    have c2 : 3 ≤ convDim 2 w := convDim_two_inv2 b
    exact ⟨convDim_two_inv3 c1, convDim_two_inv3 c2, c1, c2⟩
  unfold Wrn.forwardConv
  rw [conv2dShape_3x3 _ _ _ _ _ hh hw]
  simp only [Option.some_bind, convDim_one hh, convDim_one hw]
  rw [stageShape_wrn_make_stage t1 i (i * wf) n 1 dr h w hh hw (fun _ => rfl)
    (fun hx => by
      obtain ⟨a, b, _, _⟩ := hth hx
      rw [convDim_one hh, convDim_one hw]
      exact ⟨by omega, by omega, by omega, by omega⟩)]
  simp only [if_neg hn0, Option.some_bind, convDim_one hh, convDim_one hw]
  rw [stageShape_wrn_make_stage t1 (i * wf) (i * 2 * wf) n 2 dr h w hh hw
    (fun hEq => absurd hEq (Nat.ne_of_lt (wrn_c1_lt_c2 hi hwf)))
    (fun hx => by
      obtain ⟨a, b, c, d⟩ := hth hx
      exact ⟨by omega, by omega, by omega, by omega⟩)]
  simp only [if_neg hn0, Option.some_bind]
  rw [stageShape_wrn_make_stage t1 (i * 2 * wf) (i * 4 * wf) n 2 dr
    (convDim 2 h) (convDim 2 w) (convDim_pos _ _) (convDim_pos _ _)
    (fun hEq => absurd hEq (Nat.ne_of_lt (wrn_c2_lt_c3 hi hwf)))
    (fun hx => by
      obtain ⟨a, b⟩ := ht hx
      obtain ⟨_, _, c, d⟩ := hth hx
      exact ⟨by omega, by omega, a, b⟩)]
  simp only [if_neg hn0, Option.some_bind]
  rw [bnShape_ok t1 (i * 4 * wf) (convDim 2 (convDim 2 h))
    (convDim 2 (convDim 2 w))
    (fun hx => two_le_mul_ne_one (ht hx).1 (convDim_pos _ _))]
  simp [globalAvgPoolShape]

lemma wrn_forwardConv_some_spatial (t1 : Bool) (stemIn stemOut : Nat)
    (s1 s2 s3 : List Wrn.BlockParams) (bnCh : Nat) (h w : Nat) (p : Shape)
    (hp : Wrn.forwardConv t1 stemIn stemOut s1 s2 s3 bnCh (stemIn, h, w)
      = some p) : 1 ≤ h ∧ 1 ≤ w := by
  simp only [Wrn.forwardConv, Option.bind_eq_some] at hp
  obtain ⟨x1, hx1, _⟩ := hp
  simp only [conv2dShape] at hx1
  split at hx1
  · next hcond =>
    have h1 := hcond.2.1
    have h2 := hcond.2.2
    simp only at h1 h2
    omega
  · exact absurd hx1 (by simp)

/-- The network record produced by a successful `wrn` build. -/
def wrnBuiltNet (cfg : Wrn.Config) (n : Int) : Wrn.Network :=
  { stemInC := cfg.n_input_channels
    stemOutC := cfg.initial_channels
    stage1 := Wrn.make_stage cfg.initial_channels
      (cfg.initial_channels * cfg.widening_factor) n 1 cfg.drop_rate
    stage2 := Wrn.make_stage (cfg.initial_channels * cfg.widening_factor)
      (cfg.initial_channels * 2 * cfg.widening_factor) n 2 cfg.drop_rate
    stage3 := Wrn.make_stage (cfg.initial_channels * 2 * cfg.widening_factor)
      (cfg.initial_channels * 4 * cfg.widening_factor) n 2 cfg.drop_rate
    bnChannels := cfg.initial_channels * 4 * cfg.widening_factor
    nChannels := [cfg.initial_channels,
      cfg.initial_channels * cfg.widening_factor,
      cfg.initial_channels * 2 * cfg.widening_factor,
      cfg.initial_channels * 4 * cfg.widening_factor]
    featureSize := cfg.initial_channels * 4 * cfg.widening_factor
    fcIn := cfg.initial_channels * 4 * cfg.widening_factor
    fcOut := cfg.n_classes }

lemma wrn_build_inv (cfg : Wrn.Config) (net : Wrn.Network)
    (h : Wrn.build cfg = some net) :
    ∃ (n : Int) (probe : Shape),
      Wrn.wrn_n_blocks cfg.depth = some n ∧
      Wrn.forwardConv true cfg.n_input_channels cfg.initial_channels
        (Wrn.make_stage cfg.initial_channels
          (cfg.initial_channels * cfg.widening_factor) n 1 cfg.drop_rate)
        (Wrn.make_stage (cfg.initial_channels * cfg.widening_factor)
          (cfg.initial_channels * 2 * cfg.widening_factor) n 2 cfg.drop_rate)
        (Wrn.make_stage (cfg.initial_channels * 2 * cfg.widening_factor)
          (cfg.initial_channels * 4 * cfg.widening_factor) n 2 cfg.drop_rate)
        (cfg.initial_channels * 4 * cfg.widening_factor)
        (cfg.n_input_channels, cfg.image_size, cfg.image_size) = some probe ∧
      net = { wrnBuiltNet cfg n with
        featureSize := probe.1 * probe.2.1 * probe.2.2
        fcIn := probe.1 * probe.2.1 * probe.2.2 } := by
  simp only [Wrn.build, Option.bind_eq_some] at h
  obtain ⟨n, hn, probe, hp, hnet⟩ := h
  refine ⟨n, probe, hn, hp, ?_⟩
  rw [← Option.some.inj hnet]
  rfl

/-! ### Failure lemmas for the batch-1 training-mode probe -/

lemma stageShape_first_none {β : Type} (f : β → Shape → Option Shape)
    (b : β) (bs : List β) (sh : Shape) (hfail : f b sh = none) :
    stageShape f (b :: bs) sh = none := by
  rw [stageShape_cons, hfail]
  rfl

lemma bnShape_batch_one (c : Nat) : bnShape true c (c, 1, 1) = none := by
  simp [bnShape]

lemma basicBlockShape_one (b : ResnetPreact.BlockParams) :
    ResnetPreact.basicBlockShape true b (b.in_channels, 1, 1) = none := by
  simp [ResnetPreact.basicBlockShape, bnShape]

lemma bottleneckBlockShape_one (b : ResnetPreact.BlockParams) :
    ResnetPreact.bottleneckBlockShape true b (b.in_channels, 1, 1) = none := by
  simp [ResnetPreact.bottleneckBlockShape, bnShape]

lemma wrnBlockShape_one (b : Wrn.BlockParams) :
    Wrn.wrnBlockShape true b (b.in_channels, 1, 1) = none := by
  simp [Wrn.wrnBlockShape, bnShape]

lemma blockShapeFor_one (bt : ResnetPreact.RBlockType)
    (b : ResnetPreact.BlockParams) :
    ResnetPreact.blockShapeFor bt true b (b.in_channels, 1, 1) = none := by
  cases bt
  · exact basicBlockShape_one b
  · exact bottleneckBlockShape_one b

lemma basicBlockShape_collapse (b : ResnetPreact.BlockParams) (h w : Nat)
    (hh : 2 ≤ h) (hw : 2 ≤ w) (hch : convDim b.stride h = 1)
    (hcw : convDim b.stride w = 1) :
    ResnetPreact.basicBlockShape true b (b.in_channels, h, w) = none := by
  obtain ⟨inC, outC, s, rfr, albn, p⟩ := b
  simp only at hch hcw ⊢
  simp only [ResnetPreact.basicBlockShape]
  rw [bnShape_ok true inC h w (fun _ => two_le_mul_ne_one hh (by omega))]
  simp only [Option.some_bind]
  rw [conv2dShape_3x3 _ _ _ _ _ (by omega) (by omega), hch, hcw]
  simp only [Option.some_bind]
  rw [bnShape_batch_one]
  rfl

lemma bottleneckBlockShape_collapse (b : ResnetPreact.BlockParams) (h w : Nat)
    (hh : 2 ≤ h) (hw : 2 ≤ w) (hch : convDim b.stride h = 1)
    (hcw : convDim b.stride w = 1) :
    ResnetPreact.bottleneckBlockShape true b (b.in_channels, h, w) = none := by
  obtain ⟨inC, outC, s, rfr, albn, p⟩ := b
  simp only at hch hcw ⊢
  simp only [ResnetPreact.bottleneckBlockShape]
  rw [bnShape_ok true inC h w (fun _ => two_le_mul_ne_one hh (by omega))]
  simp only [Option.some_bind]
  rw [conv2dShape_1x1 _ _ _ _ _ (by omega) (by omega)]
  simp only [Option.some_bind, convDim_one (show (1:Nat) ≤ h by omega),
    convDim_one (show (1:Nat) ≤ w by omega)]
  rw [bnShape_ok true (outC / 4) h w (fun _ => two_le_mul_ne_one hh (by omega))]
  simp only [Option.some_bind]
  rw [conv2dShape_3x3 _ _ _ _ _ (by omega) (by omega), hch, hcw]
  simp only [Option.some_bind]
  rw [bnShape_batch_one]
  rfl

lemma wrnBlockShape_collapse (b : Wrn.BlockParams) (h w : Nat)
    (hh : 2 ≤ h) (hw : 2 ≤ w) (hch : convDim b.stride h = 1)
    (hcw : convDim b.stride w = 1) :
    Wrn.wrnBlockShape true b (b.in_channels, h, w) = none := by
  obtain ⟨inC, outC, s, dr⟩ := b
  simp only at hch hcw ⊢
  simp only [Wrn.wrnBlockShape]
  rw [bnShape_ok true inC h w (fun _ => two_le_mul_ne_one hh (by omega))]
  simp only [Option.some_bind]
  rw [conv2dShape_3x3 _ _ _ _ _ (by omega) (by omega), hch, hcw]
  simp only [Option.some_bind]
  rw [bnShape_batch_one]
  rfl

lemma blockShapeFor_collapse (bt : ResnetPreact.RBlockType)
    (b : ResnetPreact.BlockParams) (h w : Nat)
    (hh : 2 ≤ h) (hw : 2 ≤ w) (hch : convDim b.stride h = 1)
    (hcw : convDim b.stride w = 1) :
    ResnetPreact.blockShapeFor bt true b (b.in_channels, h, w) = none := by
  cases bt
  · exact basicBlockShape_collapse b h w hh hw hch hcw
  · exact bottleneckBlockShape_collapse b h w hh hw hch hcw

lemma convDim_two_lt {h : Nat} (hh : 3 ≤ h) : convDim 2 h < h := by
  have hd := Nat.div_lt_self (by omega : 0 < h - 1) (by omega : 1 < 2)
  unfold convDim
  omega

lemma inplaceAddShape_strided (c : Nat) (h w : Nat) (hne : convDim 2 h ≠ h)
    (hone : h ≠ 1) :
    inplaceAddShape (c, convDim 2 h, convDim 2 w) (c, h, w) = none := by
  unfold inplaceAddShape
  rw [if_neg]
  intro hcond
  obtain ⟨_, hH, _⟩ := hcond
  simp only at hH
  rcases hH with hH | hH
  · exact hne hH.symm
  · exact hone hH

/-! The next three lemmas: a width-preserving block constructed with
stride 2 fails in a batch-1 training probe on any input of spatial
size at least 3x3 — the residual path halves the spatial size while
the identity shortcut does not, so the in-place add raises. -/

lemma basicBlockShape_addfail (b : ResnetPreact.BlockParams) (h w : Nat)
    (heq : b.in_channels = b.out_channels) (hs : b.stride = 2)
    (hh : 3 ≤ h) (hw : 1 ≤ w) :
    ResnetPreact.basicBlockShape true b (b.in_channels, h, w) = none := by
  obtain ⟨inC, outC, s, rfr, albn, p⟩ := b
  simp only at heq hs ⊢
  subst heq
  subst hs
  have hch2 : 2 ≤ convDim 2 h :=
    (convDim_two_le_iff 1 h (by omega)).mpr (by omega)
  simp only [ResnetPreact.basicBlockShape]
  rw [bnShape_ok true inC h w (fun _ => two_le_mul_ne_one (by omega) hw)]
  simp only [Option.some_bind]
  rw [conv2dShape_3x3 _ _ _ _ _ (by omega) hw]
  simp only [Option.some_bind]
  rw [bnShape_ok true inC (convDim 2 h) (convDim 2 w)
    (fun _ => two_le_mul_ne_one hch2 (convDim_pos 2 w))]
  simp only [Option.some_bind]
  rw [conv2dShape_3x3 _ _ _ _ _ (convDim_pos _ _) (convDim_pos _ _)]
  simp only [Option.some_bind, convDim_one (convDim_pos 2 h),
    convDim_one (convDim_pos 2 w)]
  have hbn3 : (if albn = true then
        bnShape true inC (inC, convDim 2 h, convDim 2 w)
      else some (inC, convDim 2 h, convDim 2 w))
      = some (inC, convDim 2 h, convDim 2 w) := by
    cases albn
    · rfl
    · simpa using bnShape_ok true inC (convDim 2 h) (convDim 2 w)
        (fun _ => two_le_mul_ne_one hch2 (convDim_pos 2 w))
  rw [hbn3]
  simp only [Option.some_bind, mkShortcut, ne_eq, not_true_eq_false, if_neg,
    not_not, if_pos]
  exact inplaceAddShape_strided inC h w
    (Nat.ne_of_lt (convDim_two_lt hh)) (by omega)

lemma bottleneckBlockShape_addfail (b : ResnetPreact.BlockParams) (h w : Nat)
    (heq : b.in_channels = b.out_channels) (hs : b.stride = 2)
    (hh : 3 ≤ h) (hw : 1 ≤ w) :
    ResnetPreact.bottleneckBlockShape true b (b.in_channels, h, w) = none := by
  obtain ⟨inC, outC, s, rfr, albn, p⟩ := b
  simp only at heq hs ⊢
  subst heq
  subst hs
  have hch2 : 2 ≤ convDim 2 h :=
    (convDim_two_le_iff 1 h (by omega)).mpr (by omega)
  simp only [ResnetPreact.bottleneckBlockShape]
  rw [bnShape_ok true inC h w (fun _ => two_le_mul_ne_one (by omega) hw)]
  simp only [Option.some_bind]
  rw [conv2dShape_1x1 _ _ _ _ _ (by omega) hw]
  simp only [Option.some_bind, convDim_one (show (1:Nat) ≤ h by omega),
    convDim_one hw]
  rw [bnShape_ok true (inC / 4) h w
    (fun _ => two_le_mul_ne_one (by omega) hw)]
  simp only [Option.some_bind]
  rw [conv2dShape_3x3 _ _ _ _ _ (by omega) hw]
  simp only [Option.some_bind]
  rw [bnShape_ok true (inC / 4) (convDim 2 h) (convDim 2 w)
    (fun _ => two_le_mul_ne_one hch2 (convDim_pos 2 w))]
  simp only [Option.some_bind]
  rw [conv2dShape_1x1 _ _ _ _ _ (convDim_pos _ _) (convDim_pos _ _)]
  simp only [Option.some_bind, convDim_one (convDim_pos 2 h),
    convDim_one (convDim_pos 2 w)]
  have hbn4 : (if albn = true then
        bnShape true inC (inC, convDim 2 h, convDim 2 w)
      else some (inC, convDim 2 h, convDim 2 w))
      = some (inC, convDim 2 h, convDim 2 w) := by
    cases albn
    · rfl
    · simpa using bnShape_ok true inC (convDim 2 h) (convDim 2 w)
        (fun _ => two_le_mul_ne_one hch2 (convDim_pos 2 w))
  rw [hbn4]
  simp only [Option.some_bind, mkShortcut, ne_eq, not_true_eq_false, if_neg,
    not_not, if_pos]
  exact inplaceAddShape_strided inC h w
    (Nat.ne_of_lt (convDim_two_lt hh)) (by omega)

lemma wrnBlockShape_addfail (b : Wrn.BlockParams) (h w : Nat)
    (heq : b.in_channels = b.out_channels) (hs : b.stride = 2)
    (hh : 3 ≤ h) (hw : 1 ≤ w) :
    Wrn.wrnBlockShape true b (b.in_channels, h, w) = none := by
  obtain ⟨inC, outC, s, dr⟩ := b
  simp only at heq hs ⊢
  subst heq
  subst hs
  have hch2 : 2 ≤ convDim 2 h :=
    (convDim_two_le_iff 1 h (by omega)).mpr (by omega)
  simp only [Wrn.wrnBlockShape]
  rw [bnShape_ok true inC h w (fun _ => two_le_mul_ne_one (by omega) hw)]
  simp only [Option.some_bind]
  rw [conv2dShape_3x3 _ _ _ _ _ (by omega) hw]
  simp only [Option.some_bind]
  rw [bnShape_ok true inC (convDim 2 h) (convDim 2 w)
    (fun _ => two_le_mul_ne_one hch2 (convDim_pos 2 w))]
  simp only [Option.some_bind]
  rw [conv2dShape_3x3 _ _ _ _ _ (convDim_pos _ _) (convDim_pos _ _)]
  simp only [Option.some_bind, convDim_one (convDim_pos 2 h),
    convDim_one (convDim_pos 2 w)]
  simp only [mkShortcut, ne_eq, not_true_eq_false, if_neg, not_not, if_pos]
  exact inplaceAddShape_strided inC h w
    (Nat.ne_of_lt (convDim_two_lt hh)) (by omega)

lemma blockShapeFor_addfail (bt : ResnetPreact.RBlockType)
    (b : ResnetPreact.BlockParams) (h w : Nat)
    (heq : b.in_channels = b.out_channels) (hs : b.stride = 2)
    (hh : 3 ≤ h) (hw : 1 ≤ w) :
    ResnetPreact.blockShapeFor bt true b (b.in_channels, h, w) = none := by
  cases bt
  · exact basicBlockShape_addfail b h w heq hs hh hw
  · exact bottleneckBlockShape_addfail b h w heq hs hh hw

lemma stem_fail_zero (stemIn i : Nat) :
    conv2dShape stemIn i 3 1 1 (stemIn, 0, 0) = none := by
  unfold conv2dShape
  rw [if_neg]
  intro hcond
  have h1 := hcond.2.1
  simp only at h1
  omega

/-- With at least one block per stage and positive channel widths, the
probe fails for every image size of at most 4: the spatial size that
reaches stage3's strided normalization (or, at image size 1, already
stage1's first normalization) is 1x1, and the batch-1 training-mode
check raises. -/
lemma resnet_forwardConv_small (bt : ResnetPreact.RBlockType) (stemIn i : Nat)
    (hi : 1 ≤ i) (rfr albn p1 p2 p3 : Bool) (n : Int) (hn : 1 ≤ n)
    (S : Nat) (hS : S ≤ 4) :
    ResnetPreact.forwardConv true bt stemIn i
      (ResnetPreact.make_stage rfr albn i i n 1 p1)
      (ResnetPreact.make_stage rfr albn i (i * 2 * bt.expansion) n 2 p2)
      (ResnetPreact.make_stage rfr albn (i * 2 * bt.expansion)
        (i * 4 * bt.expansion) n 2 p3)
      (i * 4 * bt.expansion) (stemIn, S, S) = none := by
  have he := expansion_pos bt
  have hn0 : ¬ n.toNat = 0 := by omega
  unfold ResnetPreact.forwardConv
  interval_cases S
  · rw [stem_fail_zero]
    rfl
  · rw [conv2dShape_3x3 _ _ _ _ _ (by omega) (by omega)]
    simp only [Option.some_bind, convDim_one (show (1:Nat) ≤ 1 by omega)]
    have hfail := blockShapeFor_one bt ⟨i, i, 1, rfr, albn, p1⟩
    simp only at hfail
    rw [make_stage_eq, if_neg hn0, stageShape_first_none _ _ _ _ hfail]
    simp only [Option.none_bind]
  · rw [conv2dShape_3x3 _ _ _ _ _ (by omega) (by omega)]
    simp only [Option.some_bind, convDim_one (show (1:Nat) ≤ 2 by omega)]
    rw [stageShape_make_stage true (ResnetPreact.blockShapeFor bt true)
      (blockShapeFor_eval bt true) rfr albn i i n 1 p1 2 2 (by omega)
      (by omega) (fun _ => rfl) (fun _ => by decide)]
    simp only [if_neg hn0, Option.some_bind,
      convDim_one (show (1:Nat) ≤ 2 by omega)]
    have hfail := blockShapeFor_collapse bt
      ⟨i, i * 2 * bt.expansion, 2, rfr, albn, p2⟩ 2 2 (by omega) (by omega)
      (by simp [convDim]) (by simp [convDim])
    simp only at hfail
    rw [make_stage_eq, if_neg hn0, stageShape_first_none _ _ _ _ hfail]
    simp only [Option.none_bind]
  · rw [conv2dShape_3x3 _ _ _ _ _ (by omega) (by omega)]
    simp only [Option.some_bind, convDim_one (show (1:Nat) ≤ 3 by omega)]
    rw [stageShape_make_stage true (ResnetPreact.blockShapeFor bt true)
      (blockShapeFor_eval bt true) rfr albn i i n 1 p1 3 3 (by omega)
      (by omega) (fun _ => rfl) (fun _ => by decide)]
    simp only [if_neg hn0, Option.some_bind,
      convDim_one (show (1:Nat) ≤ 3 by omega)]
    rw [stageShape_make_stage true (ResnetPreact.blockShapeFor bt true)
      (blockShapeFor_eval bt true) rfr albn i (i * 2 * bt.expansion) n 2 p2
      3 3 (by omega) (by omega)
      (fun hEq => absurd hEq (Nat.ne_of_lt (initial_lt_c1 hi he)))
      (fun _ => by decide)]
    simp only [if_neg hn0, Option.some_bind]
    have hfail := blockShapeFor_collapse bt
      ⟨i * 2 * bt.expansion, i * 4 * bt.expansion, 2, rfr, albn, p3⟩
      (convDim 2 3) (convDim 2 3) (by decide) (by decide)
      (by simp [convDim]) (by simp [convDim])
    simp only at hfail
    rw [make_stage_eq, if_neg hn0, stageShape_first_none _ _ _ _ hfail]
    simp only [Option.none_bind]
  · rw [conv2dShape_3x3 _ _ _ _ _ (by omega) (by omega)]
    simp only [Option.some_bind, convDim_one (show (1:Nat) ≤ 4 by omega)]
    rw [stageShape_make_stage true (ResnetPreact.blockShapeFor bt true)
      (blockShapeFor_eval bt true) rfr albn i i n 1 p1 4 4 (by omega)
      (by omega) (fun _ => rfl) (fun _ => by decide)]
    simp only [if_neg hn0, Option.some_bind,
      convDim_one (show (1:Nat) ≤ 4 by omega)]
    rw [stageShape_make_stage true (ResnetPreact.blockShapeFor bt true)
      (blockShapeFor_eval bt true) rfr albn i (i * 2 * bt.expansion) n 2 p2
      4 4 (by omega) (by omega)
      (fun hEq => absurd hEq (Nat.ne_of_lt (initial_lt_c1 hi he)))
      (fun _ => by decide)]
    simp only [if_neg hn0, Option.some_bind]
    have hfail := blockShapeFor_collapse bt
      ⟨i * 2 * bt.expansion, i * 4 * bt.expansion, 2, rfr, albn, p3⟩
      (convDim 2 4) (convDim 2 4) (by decide) (by decide)
      (by simp [convDim]) (by simp [convDim])
    simp only at hfail
    rw [make_stage_eq, if_neg hn0, stageShape_first_none _ _ _ _ hfail]
    simp only [Option.none_bind]

/-- With at least one block per stage and zero initial channels, the
probe fails at every image size: sizes 0 and 1 fail in the stem or the
first normalization, and from size 2 on the width-preserving strided
stage2 block fails (its second normalization at 1x1, or the in-place
add against the identity shortcut). -/
lemma resnet_forwardConv_zero_width (bt : ResnetPreact.RBlockType)
    (stemIn : Nat) (rfr albn p1 p2 p3 : Bool) (n : Int) (hn : 1 ≤ n)
    (S : Nat) :
    ResnetPreact.forwardConv true bt stemIn 0
      (ResnetPreact.make_stage rfr albn 0 0 n 1 p1)
      (ResnetPreact.make_stage rfr albn 0 (0 * 2 * bt.expansion) n 2 p2)
      (ResnetPreact.make_stage rfr albn (0 * 2 * bt.expansion)
        (0 * 4 * bt.expansion) n 2 p3)
      (0 * 4 * bt.expansion) (stemIn, S, S) = none := by
  have hn0 : ¬ n.toNat = 0 := by omega
  simp only [Nat.zero_mul]
  unfold ResnetPreact.forwardConv
  rcases Nat.lt_or_ge S 2 with hS2 | hS2
  · interval_cases S
    · rw [stem_fail_zero]
      rfl
    · rw [conv2dShape_3x3 _ _ _ _ _ (by omega) (by omega)]
      simp only [Option.some_bind, convDim_one (show (1:Nat) ≤ 1 by omega)]
      have hfail := blockShapeFor_one bt ⟨0, 0, 1, rfr, albn, p1⟩
      simp only at hfail
      rw [make_stage_eq, if_neg hn0, stageShape_first_none _ _ _ _ hfail]
      simp only [Option.none_bind]
  · rw [conv2dShape_3x3 _ _ _ _ _ (by omega) (by omega)]
    simp only [Option.some_bind, convDim_one (show (1:Nat) ≤ S by omega)]
    rw [stageShape_make_stage true (ResnetPreact.blockShapeFor bt true)
      (blockShapeFor_eval bt true) rfr albn 0 0 n 1 p1 S S (by omega)
      (by omega) (fun _ => rfl)
      (fun _ => by
        rw [convDim_one (show (1:Nat) ≤ S by omega)]
        exact ⟨hS2, hS2, hS2, hS2⟩)]
    simp only [if_neg hn0, Option.some_bind,
      convDim_one (show (1:Nat) ≤ S by omega)]
    rcases Nat.lt_or_ge S 3 with hS3 | hS3
    · have hSeq : S = 2 := by omega
      subst hSeq
      have hfail := blockShapeFor_collapse bt ⟨0, 0, 2, rfr, albn, p2⟩ 2 2
        (by omega) (by omega) (by simp [convDim]) (by simp [convDim])
      simp only at hfail
      rw [make_stage_eq, if_neg hn0, stageShape_first_none _ _ _ _ hfail]
      simp only [Option.none_bind]
    · have hfail := blockShapeFor_addfail bt ⟨0, 0, 2, rfr, albn, p2⟩ S S
        (by simp) (by simp) hS3 (by omega)
      simp only at hfail
      rw [make_stage_eq, if_neg hn0, stageShape_first_none _ _ _ _ hfail]
      simp only [Option.none_bind]

/-- If the probe succeeds with zero blocks per stage, the stem output
channel count already matches the final normalization, and the probe
result is the pooled stem width. -/
lemma resnet_probe_empty_inv (bt : ResnetPreact.RBlockType) (stemIn i : Nat)
    (rfr albn p1 p2 p3 : Bool) (n : Int) (hn : n < 1) (S : Nat) (p : Shape)
    (hp : ResnetPreact.forwardConv true bt stemIn i
      (ResnetPreact.make_stage rfr albn i i n 1 p1)
      (ResnetPreact.make_stage rfr albn i (i * 2 * bt.expansion) n 2 p2)
      (ResnetPreact.make_stage rfr albn (i * 2 * bt.expansion)
        (i * 4 * bt.expansion) n 2 p3)
      (i * 4 * bt.expansion) (stemIn, S, S) = some p) :
    i = i * 4 * bt.expansion ∧ p = (i, 1, 1) := by
  have hn0 : n.toNat = 0 := by omega
  unfold ResnetPreact.forwardConv at hp
  rw [make_stage_eq, make_stage_eq, make_stage_eq] at hp
  simp only [hn0, if_pos, stageShape_nil, Option.some_bind] at hp
  simp only [Option.bind_eq_some] at hp
  obtain ⟨x1, hx1, x5, hx5, hpeq⟩ := hp
  simp only [conv2dShape] at hx1
  split at hx1
  · next hcond =>
    have hx1e := Option.some.inj hx1
    rw [← hx1e] at hx5
    simp only [bnShape] at hx5
    split at hx5
    · next hcond2 =>
      have h1 := hcond2.1
      simp only at h1
      refine ⟨h1, ?_⟩
      have hx5e := Option.some.inj hx5
      have hpe := Option.some.inj hpeq
      rw [← hpe, ← hx5e]
      simp [globalAvgPoolShape]
    · exact absurd hx5 (by simp)
  · exact absurd hx1 (by simp)

/-- Inference-mode forward of a network whose stages are empty and
whose stem width equals the final normalization width. -/
lemma resnet_forwardConv_empty (bt : ResnetPreact.RBlockType) (stemIn i : Nat)
    (rfr albn p1 p2 p3 : Bool) (n : Int) (hn : n < 1)
    (hc : i = i * 4 * bt.expansion) (h w : Nat) (hh : 1 ≤ h) (hw : 1 ≤ w) :
    ResnetPreact.forwardConv false bt stemIn i
      (ResnetPreact.make_stage rfr albn i i n 1 p1)
      (ResnetPreact.make_stage rfr albn i (i * 2 * bt.expansion) n 2 p2)
      (ResnetPreact.make_stage rfr albn (i * 2 * bt.expansion)
        (i * 4 * bt.expansion) n 2 p3)
      (i * 4 * bt.expansion) (stemIn, h, w)
      = some (i * 4 * bt.expansion, 1, 1) := by
  have hn0 : n.toNat = 0 := by omega
  rw [← hc]
  unfold ResnetPreact.forwardConv
  rw [conv2dShape_3x3 _ _ _ _ _ hh hw]
  simp only [Option.some_bind, convDim_one hh, convDim_one hw]
  rw [make_stage_eq, make_stage_eq, make_stage_eq]
  simp only [hn0, if_pos, stageShape_nil, Option.some_bind]
  rw [bnShape_ok false i h w (fun hx => absurd hx (by decide))]
  simp [globalAvgPoolShape]

/-- `wrn` analog of `resnet_forwardConv_small`. -/
lemma wrn_forwardConv_small (stemIn i wf : Nat) (hi : 1 ≤ i) (hwf : 1 ≤ wf)
    (dr : Rat) (n : Int) (hn : 1 ≤ n) (S : Nat) (hS : S ≤ 4) :
    Wrn.forwardConv true stemIn i
      (Wrn.make_stage i (i * wf) n 1 dr)
      (Wrn.make_stage (i * wf) (i * 2 * wf) n 2 dr)
      (Wrn.make_stage (i * 2 * wf) (i * 4 * wf) n 2 dr)
      (i * 4 * wf) (stemIn, S, S) = none := by
  have hn0 : ¬ n.toNat = 0 := by omega
  unfold Wrn.forwardConv
  interval_cases S
  · rw [stem_fail_zero]
    rfl
  · rw [conv2dShape_3x3 _ _ _ _ _ (by omega) (by omega)]
    simp only [Option.some_bind, convDim_one (show (1:Nat) ≤ 1 by omega)]
    have hfail := wrnBlockShape_one ⟨i, i * wf, 1, dr⟩
    simp only at hfail
    rw [wrn_make_stage_eq, if_neg hn0, stageShape_first_none _ _ _ _ hfail]
    simp only [Option.none_bind]
  · rw [conv2dShape_3x3 _ _ _ _ _ (by omega) (by omega)]
    simp only [Option.some_bind, convDim_one (show (1:Nat) ≤ 2 by omega)]
    rw [stageShape_wrn_make_stage true i (i * wf) n 1 dr 2 2 (by omega)
      (by omega) (fun _ => rfl) (fun _ => by decide)]
    simp only [if_neg hn0, Option.some_bind,
      convDim_one (show (1:Nat) ≤ 2 by omega)]
    have hfail := wrnBlockShape_collapse ⟨i * wf, i * 2 * wf, 2, dr⟩ 2 2
      (by omega) (by omega) (by simp [convDim]) (by simp [convDim])
    simp only at hfail
    rw [wrn_make_stage_eq, if_neg hn0, stageShape_first_none _ _ _ _ hfail]
    simp only [Option.none_bind]
  · rw [conv2dShape_3x3 _ _ _ _ _ (by omega) (by omega)]
    simp only [Option.some_bind, convDim_one (show (1:Nat) ≤ 3 by omega)]
    rw [stageShape_wrn_make_stage true i (i * wf) n 1 dr 3 3 (by omega)
      (by omega) (fun _ => rfl) (fun _ => by decide)]
    simp only [if_neg hn0, Option.some_bind,
      convDim_one (show (1:Nat) ≤ 3 by omega)]
    rw [stageShape_wrn_make_stage true (i * wf) (i * 2 * wf) n 2 dr 3 3
      (by omega) (by omega)
      (fun hEq => absurd hEq (Nat.ne_of_lt (wrn_c1_lt_c2 hi hwf)))
      (fun _ => by decide)]
    simp only [if_neg hn0, Option.some_bind]
    have hfail := wrnBlockShape_collapse ⟨i * 2 * wf, i * 4 * wf, 2, dr⟩
      (convDim 2 3) (convDim 2 3) (by decide) (by decide)
      (by simp [convDim]) (by simp [convDim])
    simp only at hfail
    rw [wrn_make_stage_eq, if_neg hn0, stageShape_first_none _ _ _ _ hfail]
    simp only [Option.none_bind]
  · rw [conv2dShape_3x3 _ _ _ _ _ (by omega) (by omega)]
    simp only [Option.some_bind, convDim_one (show (1:Nat) ≤ 4 by omega)]
    rw [stageShape_wrn_make_stage true i (i * wf) n 1 dr 4 4 (by omega)
      (by omega) (fun _ => rfl) (fun _ => by decide)]
    simp only [if_neg hn0, Option.some_bind,
      convDim_one (show (1:Nat) ≤ 4 by omega)]
    rw [stageShape_wrn_make_stage true (i * wf) (i * 2 * wf) n 2 dr 4 4
      (by omega) (by omega)
      (fun hEq => absurd hEq (Nat.ne_of_lt (wrn_c1_lt_c2 hi hwf)))
      (fun _ => by decide)]
    simp only [if_neg hn0, Option.some_bind]
    have hfail := wrnBlockShape_collapse ⟨i * 2 * wf, i * 4 * wf, 2, dr⟩
      (convDim 2 4) (convDim 2 4) (by decide) (by decide)
      (by simp [convDim]) (by simp [convDim])
    simp only at hfail
    rw [wrn_make_stage_eq, if_neg hn0, stageShape_first_none _ _ _ _ hfail]
    simp only [Option.none_bind]

/-- `wrn` analog of `resnet_forwardConv_zero_width`: when
`initial_channels * widening_factor = 0`, stage2 is width-preserving
with stride 2 and the probe fails at every image size. -/
lemma wrn_forwardConv_zero_width (stemIn i wf : Nat) (hc : i * wf = 0)
    (dr : Rat) (n : Int) (hn : 1 ≤ n) (S : Nat) :
    Wrn.forwardConv true stemIn i
      (Wrn.make_stage i (i * wf) n 1 dr)
      (Wrn.make_stage (i * wf) (i * 2 * wf) n 2 dr)
      (Wrn.make_stage (i * 2 * wf) (i * 4 * wf) n 2 dr)
      (i * 4 * wf) (stemIn, S, S) = none := by
  have hn0 : ¬ n.toNat = 0 := by omega
  have hc2 : i * 2 * wf = 0 := by
    rcases Nat.mul_eq_zero.mp hc with h0 | h0 <;> simp [h0]
  have hc3 : i * 4 * wf = 0 := by
    rcases Nat.mul_eq_zero.mp hc with h0 | h0 <;> simp [h0]
  rw [hc, hc2, hc3]
  unfold Wrn.forwardConv
  rcases Nat.lt_or_ge S 2 with hS2 | hS2
  · interval_cases S
    · rw [stem_fail_zero]
      rfl
    · rw [conv2dShape_3x3 _ _ _ _ _ (by omega) (by omega)]
      simp only [Option.some_bind, convDim_one (show (1:Nat) ≤ 1 by omega)]
      have hfail := wrnBlockShape_one ⟨i, 0, 1, dr⟩
      simp only at hfail
      rw [wrn_make_stage_eq, if_neg hn0, stageShape_first_none _ _ _ _ hfail]
      simp only [Option.none_bind]
  · rw [conv2dShape_3x3 _ _ _ _ _ (by omega) (by omega)]
    simp only [Option.some_bind, convDim_one (show (1:Nat) ≤ S by omega)]
    rw [stageShape_wrn_make_stage true i 0 n 1 dr S S (by omega) (by omega)
      (fun _ => rfl)
      (fun _ => by
        rw [convDim_one (show (1:Nat) ≤ S by omega)]
        exact ⟨hS2, hS2, hS2, hS2⟩)]
    simp only [if_neg hn0, Option.some_bind,
      convDim_one (show (1:Nat) ≤ S by omega)]
    rcases Nat.lt_or_ge S 3 with hS3 | hS3
    · have hSeq : S = 2 := by omega
      subst hSeq
      have hfail := wrnBlockShape_collapse ⟨0, 0, 2, dr⟩ 2 2 (by omega)
        (by omega) (by simp [convDim]) (by simp [convDim])
      simp only at hfail
      rw [wrn_make_stage_eq, if_neg hn0, stageShape_first_none _ _ _ _ hfail]
      simp only [Option.none_bind]
    · have hfail := wrnBlockShape_addfail ⟨0, 0, 2, dr⟩ S S (by simp)
        (by simp) hS3 (by omega)
      simp only at hfail
      rw [wrn_make_stage_eq, if_neg hn0, stageShape_first_none _ _ _ _ hfail]
      simp only [Option.none_bind]

/-- `wrn` analog of `resnet_probe_empty_inv`. -/
lemma wrn_probe_empty_inv (stemIn i wf : Nat) (dr : Rat) (n : Int)
    (hn : n < 1) (S : Nat) (p : Shape)
    (hp : Wrn.forwardConv true stemIn i
      (Wrn.make_stage i (i * wf) n 1 dr)
      (Wrn.make_stage (i * wf) (i * 2 * wf) n 2 dr)
      (Wrn.make_stage (i * 2 * wf) (i * 4 * wf) n 2 dr)
      (i * 4 * wf) (stemIn, S, S) = some p) :
    i = i * 4 * wf ∧ p = (i, 1, 1) := by
  have hn0 : n.toNat = 0 := by omega
  unfold Wrn.forwardConv at hp
  rw [wrn_make_stage_eq, wrn_make_stage_eq, wrn_make_stage_eq] at hp
  simp only [hn0, if_pos, stageShape_nil, Option.some_bind] at hp
  simp only [Option.bind_eq_some] at hp
  obtain ⟨x1, hx1, x5, hx5, hpeq⟩ := hp
  simp only [conv2dShape] at hx1
  split at hx1
  · next hcond =>
    have hx1e := Option.some.inj hx1
    rw [← hx1e] at hx5
    simp only [bnShape] at hx5
    split at hx5
    · next hcond2 =>
      have h1 := hcond2.1
      simp only at h1
      refine ⟨h1, ?_⟩
      have hx5e := Option.some.inj hx5
      have hpe := Option.some.inj hpeq
      rw [← hpe, ← hx5e]
      simp [globalAvgPoolShape]
    · exact absurd hx5 (by simp)
  · exact absurd hx1 (by simp)

/-- `wrn` analog of `resnet_forwardConv_empty`. -/
lemma wrn_forwardConv_empty (stemIn i wf : Nat) (dr : Rat) (n : Int)
    (hn : n < 1) (hc : i = i * 4 * wf) (h w : Nat) (hh : 1 ≤ h)
    (hw : 1 ≤ w) :
    Wrn.forwardConv false stemIn i
      (Wrn.make_stage i (i * wf) n 1 dr)
      (Wrn.make_stage (i * wf) (i * 2 * wf) n 2 dr)
      (Wrn.make_stage (i * 2 * wf) (i * 4 * wf) n 2 dr)
      (i * 4 * wf) (stemIn, h, w) = some (i * 4 * wf, 1, 1) := by
  have hn0 : n.toNat = 0 := by omega
  rw [← hc]
  unfold Wrn.forwardConv
  rw [conv2dShape_3x3 _ _ _ _ _ hh hw]
  simp only [Option.some_bind, convDim_one hh, convDim_one hw]
  rw [wrn_make_stage_eq, wrn_make_stage_eq, wrn_make_stage_eq]
  simp only [hn0, if_pos, stageShape_nil, Option.some_bind]
  rw [bnShape_ok false i h w (fun hx => absurd hx (by decide))]
  simp [globalAvgPoolShape]

/-! ### Claim C2 -/

/-- C2 counterexample: at `in_channels = 16`, `out_channels = 16`,
`stride = 2` the constructors build an identity shortcut (the code only
tests channel equality), while the claim demands a 1x1 convolution
because the stride is not 1.  So "identity iff `in_channels ==
out_channels` and `stride == 1`" is false at this input. -/
theorem shortcut_claim_fails_at_stride_two :
    ¬ ((mkShortcut 16 16 2 = Shortcut.identity) ↔ (16 = 16 ∧ 2 = 1)) := by
  decide

/-- C2 (amended): in every block constructor of both families the
shortcut is the identity iff `in_channels == out_channels`, regardless
of the stride; otherwise it is a 1x1 convolution with the block's
stride. -/
theorem shortcut_identity_iff_channels :
    ∀ inC outC s : Nat,
      (mkShortcut inC outC s = Shortcut.identity ↔ inC = outC)
      ∧ (mkShortcut inC outC s = Shortcut.conv1x1 s ↔ inC ≠ outC) := by
  intro inC outC s
  by_cases hc : inC = outC <;> simp [mkShortcut, hc]

/-! ### Claim C3 -/

/-- C3: in `resnet_preact`'s `BasicBlock.forward` and
`BottleneckBlock.forward`, when `preact` is true the input is
normalized and activated before the residual/shortcut split and both
paths receive `relu(bn1(x))`; when `preact` is false the residual path
receives `bn1(x)` activated only if `remove_first_relu` is false,
while the shortcut path receives the raw input `x`. -/
theorem preact_branch_dataflow :
    ∀ (b : ResnetPreact.BlockParams) (x : TExpr),
      (b.preact = true →
        ResnetPreact.BasicBlock.forward b x
          = TExpr.add (ResnetPreact.basicResidual b (.relu (.bn 1 x)))
              (applyShortcut (mkShortcut b.in_channels b.out_channels b.stride)
                (.relu (.bn 1 x)))
        ∧ ResnetPreact.BottleneckBlock.forward b x
          = TExpr.add (ResnetPreact.bottleneckResidual b (.relu (.bn 1 x)))
              (applyShortcut (mkShortcut b.in_channels b.out_channels b.stride)
                (.relu (.bn 1 x))))
      ∧ (b.preact = false →
        ResnetPreact.BasicBlock.forward b x
          = TExpr.add (ResnetPreact.basicResidual b
                (if b.remove_first_relu then TExpr.bn 1 x
                 else TExpr.relu (.bn 1 x)))
              (applyShortcut (mkShortcut b.in_channels b.out_channels b.stride) x)
        ∧ ResnetPreact.BottleneckBlock.forward b x
          = TExpr.add (ResnetPreact.bottleneckResidual b
                (if b.remove_first_relu then TExpr.bn 1 x
                 else TExpr.relu (.bn 1 x)))
              (applyShortcut (mkShortcut b.in_channels b.out_channels b.stride) x)) := by
  intro b x
  constructor
  · intro hp
    constructor <;>
      simp [ResnetPreact.BasicBlock.forward, ResnetPreact.BottleneckBlock.forward,
        ResnetPreact.basicResidual, ResnetPreact.bottleneckResidual, hp]
  · intro hp
    constructor <;> cases hrfr : b.remove_first_relu <;>
      simp [ResnetPreact.BasicBlock.forward, ResnetPreact.BottleneckBlock.forward,
        ResnetPreact.basicResidual, ResnetPreact.bottleneckResidual, hp, hrfr]

/-- Witness for C3 at a concrete pre-activated block. -/
theorem preact_branch_dataflow_witness :
    ResnetPreact.BasicBlock.forward ⟨8, 16, 2, false, true, true⟩ TExpr.var
      = TExpr.add
          (ResnetPreact.basicResidual ⟨8, 16, 2, false, true, true⟩
            (.relu (.bn 1 .var)))
          (applyShortcut (mkShortcut 8 16 2) (.relu (.bn 1 .var))) :=
  ((preact_branch_dataflow ⟨8, 16, 2, false, true, true⟩ TExpr.var).1 rfl).1

/-! ### Claim C4 -/

/-- C4 counterexample: called with `n_blocks = 0 < 1`, both stage
builders return an empty stage (an `nn.Sequential` with no modules)
instead of failing: `range(0)` is empty and neither `_make_stage`
validates `n_blocks`. -/
theorem stage_builder_returns_stage_at_zero :
    ResnetPreact.make_stage false false 3 8 0 1 false
        = ([] : List ResnetPreact.BlockParams)
    ∧ Wrn.make_stage 3 8 0 1 0 = ([] : List Wrn.BlockParams) :=
  ⟨rfl, rfl⟩

/-- C4 (amended): the stage builders do not validate `n_blocks`; for
every `n_blocks < 1` they return an empty stage without error. -/
theorem stage_builder_empty_when_below_one :
    (∀ (rfr albn : Bool) (inC outC : Nat) (n : Int) (s : Nat) (p : Bool),
      n < 1 → ResnetPreact.make_stage rfr albn inC outC n s p = [])
    ∧ (∀ (inC outC : Nat) (n : Int) (s : Nat) (dr : Rat),
      n < 1 → Wrn.make_stage inC outC n s dr = []) := by
  constructor
  · intro rfr albn inC outC n s p hn
    rw [make_stage_eq, if_pos (by omega)]
  · intro inC outC n s dr hn
    rw [wrn_make_stage_eq, if_pos (by omega)]

/-- Witness for C4 (amended) at a concrete negative block count. -/
theorem stage_builder_empty_when_below_one_witness :
    ResnetPreact.make_stage true true 16 32 (-3) 2 true = [] :=
  stage_builder_empty_when_below_one.1 true true 16 32 (-3) 2 true (by decide)

/-! ### Claim C5 -/

/-- C5: for `n_blocks >= 1` the stage builders produce exactly
`n_blocks` blocks; the first maps `in_channels` to `out_channels` with
the given stride (and, for `resnet_preact`, the given preact flag),
every later block maps `out_channels` to `out_channels` with stride 1
and `preact = false` (for `wrn`, its derived `_preactivate_both` is
false). -/
theorem stage_builder_blocks :
    (∀ (rfr albn : Bool) (inC outC : Nat) (n : Int) (s : Nat) (p : Bool),
      1 ≤ n →
      ((ResnetPreact.make_stage rfr albn inC outC n s p).length : Int) = n
      ∧ (ResnetPreact.make_stage rfr albn inC outC n s p).head?
          = some ⟨inC, outC, s, rfr, albn, p⟩
      ∧ ∀ b ∈ (ResnetPreact.make_stage rfr albn inC outC n s p).tail,
          b = (⟨outC, outC, 1, rfr, albn, false⟩ : ResnetPreact.BlockParams))
    ∧ (∀ (inC outC : Nat) (n : Int) (s : Nat) (dr : Rat), 1 ≤ n →
      ((Wrn.make_stage inC outC n s dr).length : Int) = n
      ∧ (Wrn.make_stage inC outC n s dr).head? = some ⟨inC, outC, s, dr⟩
      ∧ ∀ b ∈ (Wrn.make_stage inC outC n s dr).tail,
          b = (⟨outC, outC, 1, dr⟩ : Wrn.BlockParams)
          ∧ Wrn.BasicBlock.preactivate_both b = false) := by
  constructor
  · intro rfr albn inC outC n s p hn
    rw [make_stage_eq, if_neg (by omega)]
    refine ⟨?_, rfl, ?_⟩
    · simp only [List.length_cons, List.length_replicate]
      omega
    · intro b hb
      simp only [List.tail_cons, List.mem_replicate] at hb
      exact hb.2
  · intro inC outC n s dr hn
    rw [wrn_make_stage_eq, if_neg (by omega)]
    refine ⟨?_, rfl, ?_⟩
    · simp only [List.length_cons, List.length_replicate]
      omega
    · intro b hb
      simp only [List.tail_cons, List.mem_replicate] at hb
      refine ⟨hb.2, ?_⟩
      rw [hb.2]
      simp [Wrn.BasicBlock.preactivate_both]

/-- Witness for C5 at a concrete three-block stage. -/
theorem stage_builder_blocks_witness :
    ((ResnetPreact.make_stage false true 16 32 3 2 true).length : Int) = 3
    ∧ (ResnetPreact.make_stage false true 16 32 3 2 true).head?
        = some ⟨16, 32, 2, false, true, true⟩ :=
  ⟨(stage_builder_blocks.1 false true 16 32 3 2 true (by decide)).1,
   (stage_builder_blocks.1 false true 16 32 3 2 true (by decide)).2.1⟩

/-! ### Claim C9 -/

/-- C9: in both `resnet_preact` blocks, a block constructed with
`preact = true` computes the same forward expression for
`remove_first_relu = true` and `remove_first_relu = false`, hence the
same output under every interpretation and every input: the first
activation is applied unconditionally before the shortcut split. -/
theorem preact_ignores_remove_first_relu :
    ∀ (inC outC s : Nat) (albn : Bool) (α : Type) (I : Interp α) (v : α)
      (t : TExpr),
      TExpr.eval I v
          (ResnetPreact.BasicBlock.forward ⟨inC, outC, s, true, albn, true⟩ t)
        = TExpr.eval I v
          (ResnetPreact.BasicBlock.forward ⟨inC, outC, s, false, albn, true⟩ t)
      ∧ TExpr.eval I v
          (ResnetPreact.BottleneckBlock.forward ⟨inC, outC, s, true, albn, true⟩ t)
        = TExpr.eval I v
          (ResnetPreact.BottleneckBlock.forward ⟨inC, outC, s, false, albn, true⟩ t) := by
  intro inC outC s albn α I v t
  exact ⟨rfl, rfl⟩

/-! ### Claim C10 -/

/-- C10: in `wrn`'s `BasicBlock`, `_preactivate_both` is exactly
channel inequality fixed at construction; when `in_channels !=
out_channels` both paths receive `relu(bn1(x))`, when they are equal
the shortcut receives the raw input while the residual path is still
(unconditionally) pre-activated; dropout sits between the two
convolutions iff `drop_rate > 0`. -/
theorem wrn_preactivate_both_dataflow :
    ∀ (b : Wrn.BlockParams) (x : TExpr),
      Wrn.BasicBlock.preactivate_both b = (b.in_channels != b.out_channels)
      ∧ (b.in_channels ≠ b.out_channels →
          Wrn.BasicBlock.forward b x
            = TExpr.add (Wrn.wrnResidual b (.relu (.bn 1 x)))
                (TExpr.conv 0 (.relu (.bn 1 x))))
      ∧ (b.in_channels = b.out_channels →
          Wrn.BasicBlock.forward b x
            = TExpr.add (Wrn.wrnResidual b (.relu (.bn 1 x))) x)
      ∧ (0 < b.drop_rate →
          Wrn.wrnResidual b x = TExpr.conv 2 (.relu (.bn 2 (.dropout (.conv 1 x)))))
      ∧ (¬ 0 < b.drop_rate →
          Wrn.wrnResidual b x = TExpr.conv 2 (.relu (.bn 2 (.conv 1 x)))) := by
  intro b x
  refine ⟨rfl, ?_, ?_, ?_, ?_⟩
  · intro hne
    simp [Wrn.BasicBlock.forward, Wrn.BasicBlock.preactivate_both, hne,
      Wrn.wrnResidual, mkShortcut, applyShortcut]
  · intro heq
    simp [Wrn.BasicBlock.forward, Wrn.BasicBlock.preactivate_both, heq,
      Wrn.wrnResidual, mkShortcut, applyShortcut]
  · intro hdr
    simp [Wrn.wrnResidual, hdr]
  · intro hdr
    simp [Wrn.wrnResidual, hdr]

/-- Witness for C10 at a widening block (8 to 16 channels) and a
width-preserving block (16 to 16 channels). -/
theorem wrn_preactivate_both_dataflow_witness :
    Wrn.BasicBlock.forward ⟨8, 16, 2, 0⟩ TExpr.var
      = TExpr.add (Wrn.wrnResidual ⟨8, 16, 2, 0⟩ (.relu (.bn 1 .var)))
          (TExpr.conv 0 (.relu (.bn 1 .var)))
    ∧ Wrn.BasicBlock.forward ⟨16, 16, 1, 0⟩ TExpr.var
      = TExpr.add (Wrn.wrnResidual ⟨16, 16, 1, 0⟩ (.relu (.bn 1 .var)))
          TExpr.var :=
  ⟨(wrn_preactivate_both_dataflow ⟨8, 16, 2, 0⟩ TExpr.var).2.1 (by decide),
   (wrn_preactivate_both_dataflow ⟨16, 16, 1, 0⟩ TExpr.var).2.2.1 rfl⟩

/-! ### Claim C1 -/

/-- A standard small `resnet_preact` configuration (depth 20, basic). -/
def cfgDepth20 : ResnetPreact.Config :=
  { block_type := .basic
    depth := 20
    initial_channels := 4
    remove_first_relu := false
    add_last_bn := true
    preact_stage := (false, true, true)
    n_input_channels := 3
    image_size := 8
    n_classes := 10 }

/-- The spec's example configuration: basic block, depth 20,
`initial_channels = 16`, 32x32 RGB input. -/
def cfg16 : ResnetPreact.Config :=
  { block_type := .basic
    depth := 20
    initial_channels := 16
    remove_first_relu := false
    add_last_bn := false
    preact_stage := (true, false, false)
    n_input_channels := 3
    image_size := 32
    n_classes := 10 }

/-- C6: every constructed network carries the channel-width list
`[c, c*2*e, c*4*e]` (resnet_preact, `e` the block's expansion:
1 for basic, 4 for bottleneck) or `[c, c*w, c*2*w, c*4*w]` (wrn);
with the basic block and `initial_channels = 16` the widths are
`[16, 32, 64]` and the final pre-pooling feature map has 64
channels. -/
theorem channel_width_list :
    (∀ (cfg : ResnetPreact.Config) (net : ResnetPreact.Network),
      ResnetPreact.build cfg = some net →
      net.nChannels = [cfg.initial_channels,
        cfg.initial_channels * 2 * cfg.block_type.expansion,
        cfg.initial_channels * 4 * cfg.block_type.expansion])
    ∧ (∀ (cfg : Wrn.Config) (net : Wrn.Network), Wrn.build cfg = some net →
      net.nChannels = [cfg.initial_channels,
        cfg.initial_channels * cfg.widening_factor,
        cfg.initial_channels * 2 * cfg.widening_factor,
        cfg.initial_channels * 4 * cfg.widening_factor])
    ∧ ResnetPreact.RBlockType.expansion .bottleneck = 4
    ∧ ResnetPreact.RBlockType.expansion .basic = 1
    ∧ (∃ net, ResnetPreact.build cfg16 = some net
        ∧ net.nChannels = [16, 32, 64] ∧ net.bnChannels = 64) := by
  refine ⟨?_, ?_, rfl, rfl, ?_⟩
  · intro cfg net h
    obtain ⟨n, probe, _, _, hnet⟩ := resnet_build_inv cfg net h
    rw [hnet]
    rfl
  · intro cfg net h
    obtain ⟨n, probe, _, _, hnet⟩ := wrn_build_inv cfg net h
    rw [hnet]
    rfl
  · exact ⟨resnetBuiltNet cfg16 3,
      resnet_build_eq cfg16 (by decide) (by decide) 3 (by decide) (by decide),
      by decide, by decide⟩

/-- Witness for C6 at the spec's example configuration. -/
theorem channel_width_list_witness :
    ((ResnetPreact.build cfg16).getD (resnetBuiltNet cfg16 3)).nChannels
      = [cfg16.initial_channels,
         cfg16.initial_channels * 2 * cfg16.block_type.expansion,
         cfg16.initial_channels * 4 * cfg16.block_type.expansion] :=
  channel_width_list.1 cfg16 _ rfl

/-! ### Claim C7 -/

/-- C7: for every successfully constructed network and every input of
the configured channel count with spatial size at least 1x1 (the
minimum that keeps both stride-2 reductions at least 1x1), the
inference-mode forward pass (stem, stage1 stride 1, stage2 stride 2,
stage3 stride 2, final normalize+activate, global average pool to 1x1,
flatten, linear classifier) returns `n_classes` output features per
sample, regardless of the input spatial size.  The flag `false` marks
an evaluation in which batch normalization performs no training-mode
batch-size check (eval mode, or any batch with more than one value per
channel). -/
theorem forward_output_classes :
    (∀ (cfg : ResnetPreact.Config) (net : ResnetPreact.Network),
      ResnetPreact.build cfg = some net →
      ∀ h w : Nat, 1 ≤ h → 1 ≤ w →
        net.forward false (cfg.n_input_channels, h, w)
          = some cfg.n_classes)
    ∧ (∀ (cfg : Wrn.Config) (net : Wrn.Network),
      Wrn.build cfg = some net →
      ∀ h w : Nat, 1 ≤ h → 1 ≤ w →
        net.forward false (cfg.n_input_channels, h, w)
          = some cfg.n_classes) := by
  constructor
  · intro cfg net hb h w hh hw
    obtain ⟨n, probe, hn, hp, hnet⟩ := resnet_build_inv cfg net hb
    by_cases hn1 : (1 : Int) ≤ n
    · by_cases hi : 1 ≤ cfg.initial_channels
      · have hS5 : 5 ≤ cfg.image_size := by
          by_contra hS
          push_neg at hS
          rw [resnet_forwardConv_small cfg.block_type cfg.n_input_channels
            cfg.initial_channels hi cfg.remove_first_relu cfg.add_last_bn
            cfg.preact_stage.1 cfg.preact_stage.2.1 cfg.preact_stage.2.2 n
            hn1 cfg.image_size (by omega)] at hp
          simp at hp
        rw [resnet_forwardConv_eval true cfg.block_type cfg.n_input_channels
          cfg.initial_channels hi cfg.remove_first_relu cfg.add_last_bn
          cfg.preact_stage.1 cfg.preact_stage.2.1 cfg.preact_stage.2.2 n hn1
          cfg.image_size cfg.image_size (by omega) (by omega)
          (fun _ => ⟨convDim_two_of_five hS5, convDim_two_of_five hS5⟩)] at hp
        have hprobe : probe
            = (cfg.initial_channels * 4 * cfg.block_type.expansion, 1, 1) :=
          (Option.some.inj hp).symm
        subst hprobe
        rw [hnet]
        simp only [ResnetPreact.Network.forward,
          ResnetPreact.Network.forward_conv, resnetBuiltNet]
        rw [resnet_forwardConv_eval false cfg.block_type cfg.n_input_channels
          cfg.initial_channels hi cfg.remove_first_relu cfg.add_last_bn
          cfg.preact_stage.1 cfg.preact_stage.2.1 cfg.preact_stage.2.2 n hn1
          h w hh hw (fun hx => absurd hx (by decide))]
        simp
      · push_neg at hi
        have hi0 : cfg.initial_channels = 0 := by omega
        rw [hi0] at hp
        rw [resnet_forwardConv_zero_width cfg.block_type cfg.n_input_channels
          cfg.remove_first_relu cfg.add_last_bn cfg.preact_stage.1
          cfg.preact_stage.2.1 cfg.preact_stage.2.2 n hn1
          cfg.image_size] at hp
        simp at hp
    · push_neg at hn1
      obtain ⟨hc, hpv⟩ := resnet_probe_empty_inv cfg.block_type
        cfg.n_input_channels cfg.initial_channels cfg.remove_first_relu
        cfg.add_last_bn cfg.preact_stage.1 cfg.preact_stage.2.1
        cfg.preact_stage.2.2 n hn1 cfg.image_size probe hp
      subst hpv
      rw [hnet]
      simp only [ResnetPreact.Network.forward,
        ResnetPreact.Network.forward_conv, resnetBuiltNet]
      rw [resnet_forwardConv_empty cfg.block_type cfg.n_input_channels
        cfg.initial_channels cfg.remove_first_relu cfg.add_last_bn
        cfg.preact_stage.1 cfg.preact_stage.2.1 cfg.preact_stage.2.2 n hn1
        hc h w hh hw]
      simp [← hc]
  · intro cfg net hb h w hh hw
    obtain ⟨n, probe, hn, hp, hnet⟩ := wrn_build_inv cfg net hb
    by_cases hn1 : (1 : Int) ≤ n
    · by_cases hiw : 1 ≤ cfg.initial_channels ∧ 1 ≤ cfg.widening_factor
      · obtain ⟨hi, hwf⟩ := hiw
        have hS5 : 5 ≤ cfg.image_size := by
          by_contra hS
          push_neg at hS
          rw [wrn_forwardConv_small cfg.n_input_channels
            cfg.initial_channels cfg.widening_factor hi hwf cfg.drop_rate n
            hn1 cfg.image_size (by omega)] at hp
          simp at hp
        rw [wrn_forwardConv_eval true cfg.n_input_channels
          cfg.initial_channels cfg.widening_factor hi hwf cfg.drop_rate n
          hn1 cfg.image_size cfg.image_size (by omega) (by omega)
          (fun _ => ⟨convDim_two_of_five hS5, convDim_two_of_five hS5⟩)] at hp
        have hprobe : probe
            = (cfg.initial_channels * 4 * cfg.widening_factor, 1, 1) :=
          (Option.some.inj hp).symm
        subst hprobe
        rw [hnet]
        simp only [Wrn.Network.forward, Wrn.Network.forward_conv, wrnBuiltNet]
        rw [wrn_forwardConv_eval false cfg.n_input_channels
          cfg.initial_channels cfg.widening_factor hi hwf cfg.drop_rate n
          hn1 h w hh hw (fun hx => absurd hx (by decide))]
        simp
      · have hc : cfg.initial_channels * cfg.widening_factor = 0 := by
          have hor : cfg.initial_channels = 0 ∨ cfg.widening_factor = 0 := by
            omega
          exact Nat.mul_eq_zero.mpr hor
        rw [wrn_forwardConv_zero_width cfg.n_input_channels
          cfg.initial_channels cfg.widening_factor hc cfg.drop_rate n hn1
          cfg.image_size] at hp
        simp at hp
    · push_neg at hn1
      obtain ⟨hc, hpv⟩ := wrn_probe_empty_inv cfg.n_input_channels
        cfg.initial_channels cfg.widening_factor cfg.drop_rate n hn1
        cfg.image_size probe hp
      subst hpv
      rw [hnet]
      simp only [Wrn.Network.forward, Wrn.Network.forward_conv, wrnBuiltNet]
      rw [wrn_forwardConv_empty cfg.n_input_channels cfg.initial_channels
        cfg.widening_factor cfg.drop_rate n hn1 hc h w hh hw]
      simp [← hc]

/-- Witness for C7 at the depth-20 basic configuration and a 7x9
input. -/
theorem forward_output_classes_witness :
    ((ResnetPreact.build cfgDepth20).getD
        (resnetBuiltNet cfgDepth20 3)).forward false
      (cfgDepth20.n_input_channels, 7, 9) = some cfgDepth20.n_classes :=
  forward_output_classes.1 cfgDepth20 _ rfl 7 9 (by decide) (by decide)

/-! ### Claim C8 -/

/-- C8: every successful construction measures the flattened length of
the probe (`_forward_conv` on a tensor of the configured shape
`(1, n_input_channels, image_size, image_size)`, a batch of one with
the modules still in training mode, flag `true`), stores it as the
feature size, and attaches a final linear layer from exactly that
measured size to `n_classes`. -/
theorem feature_size_probe :
    (∀ (cfg : ResnetPreact.Config) (net : ResnetPreact.Network),
      ResnetPreact.build cfg = some net →
      net.stemInC = cfg.n_input_channels
      ∧ ∃ probe : Shape,
          net.forward_conv true (cfg.n_input_channels, cfg.image_size,
            cfg.image_size) = some probe
          ∧ net.featureSize = probe.1 * probe.2.1 * probe.2.2
          ∧ net.fcIn = net.featureSize
          ∧ net.fcOut = cfg.n_classes)
    ∧ (∀ (cfg : Wrn.Config) (net : Wrn.Network),
      Wrn.build cfg = some net →
      net.stemInC = cfg.n_input_channels
      ∧ ∃ probe : Shape,
          net.forward_conv true (cfg.n_input_channels, cfg.image_size,
            cfg.image_size) = some probe
          ∧ net.featureSize = probe.1 * probe.2.1 * probe.2.2
          ∧ net.fcIn = net.featureSize
          ∧ net.fcOut = cfg.n_classes) := by
  constructor
  · intro cfg net h
    obtain ⟨n, probe, hn, hp, hnet⟩ := resnet_build_inv cfg net h
    rw [hnet]
    exact ⟨rfl, probe, hp, rfl, rfl, rfl⟩
  · intro cfg net h
    obtain ⟨n, probe, hn, hp, hnet⟩ := wrn_build_inv cfg net h
    rw [hnet]
    exact ⟨rfl, probe, hp, rfl, rfl, rfl⟩

/-- Witness for C8 at the depth-20 basic configuration. -/
theorem feature_size_probe_witness :
    ((ResnetPreact.build cfgDepth20).getD (resnetBuiltNet cfgDepth20 3)).stemInC
        = cfgDepth20.n_input_channels
    ∧ ∃ probe : Shape,
        ((ResnetPreact.build cfgDepth20).getD
            (resnetBuiltNet cfgDepth20 3)).forward_conv true
          (cfgDepth20.n_input_channels, cfgDepth20.image_size,
            cfgDepth20.image_size) = some probe
        ∧ ((ResnetPreact.build cfgDepth20).getD
            (resnetBuiltNet cfgDepth20 3)).featureSize
          = probe.1 * probe.2.1 * probe.2.2
        ∧ ((ResnetPreact.build cfgDepth20).getD
            (resnetBuiltNet cfgDepth20 3)).fcIn
          = ((ResnetPreact.build cfgDepth20).getD
            (resnetBuiltNet cfgDepth20 3)).featureSize
        ∧ ((ResnetPreact.build cfgDepth20).getD
            (resnetBuiltNet cfgDepth20 3)).fcOut = cfgDepth20.n_classes :=
  feature_size_probe.1 cfgDepth20 _ rfl
